import Mathlib

/-!
Verification development for the workflow debug tool backend
(`debug_tool.py`).  The Python data values flowing through the tool
(parsed JSON, strings, numbers, dictionaries, lists, `None`) are modelled
by the inductive type `JValue`; the functions of the repository are
translated one by one on top of it.  Library calls of the source
(`json.loads`, `str()`, the fixed `re` patterns, `datetime.strptime`)
are modelled by executable Lean functions faithful to their behaviour on
the value space covered by `JValue`.
-/

namespace DebugTool

/-- Model of a Python value as it occurs in the tool: strings, integers,
booleans, `None`, dictionaries (insertion-ordered, string-keyed) and
lists.  JSON payloads decode into this type. -/
inductive JValue where
  | str (s : String)
  | num (n : Int)
  | bool (b : Bool)
  | null
  | obj (fields : List (String × JValue))
  | arr (items : List JValue)

mutual

/-- Structural equality test on `JValue`, the model of Python `==` on the
value shapes that occur here. -/
def beqJ : JValue → JValue → Bool
  | .str a, .str b => a == b
  | .num a, .num b => a == b
  | .bool a, .bool b => a == b
  | .null, .null => true
  | .obj a, .obj b => beqFields a b
  | .arr a, .arr b => beqItems a b
  | _, _ => false

/-- Equality test on dictionary field lists. -/
def beqFields : List (String × JValue) → List (String × JValue) → Bool
  | [], [] => true
  | (k, v) :: r, (k', v') :: r' => k == k' && beqJ v v' && beqFields r r'
  | _, _ => false

/-- Equality test on item lists. -/
def beqItems : List JValue → List JValue → Bool
  | [], [] => true
  | v :: r, v' :: r' => beqJ v v' && beqItems r r'
  | _, _ => false

end

/-- Python truthiness: empty string, zero, `False`, `None`, empty dict and
empty list are falsy, everything else is truthy. -/
def pyTruthy : JValue → Bool
  | .str s => s ≠ ""
  | .num n => n ≠ 0
  | .bool b => b
  | .null => false
  | .obj fields => !fields.isEmpty
  | .arr items => !items.isEmpty

/-- Truthiness of an optional value (a Python variable that may still be
`None`): `none` is falsy, otherwise the value decides. -/
def optTruthy : Option JValue → Bool
  | none => false
  | some v => pyTruthy v

/-- Truthiness of an optional string variable (such as
`self.wait_on_value`): `None` and the empty string are falsy. -/
def strOptTruthy : Option String → Bool
  | none => false
  | some s => s ≠ ""

/-- Dictionary lookup (`d.get(k)` / `d[k]`); dictionaries modelled here
have unique keys, the first binding wins. -/
def objGet : List (String × JValue) → String → Option JValue
  | [], _ => none
  | (k, v) :: rest, key => if k = key then some v else objGet rest key

/-- Key membership test, Python `k in d`. -/
def objHasKey (fields : List (String × JValue)) (key : String) : Bool :=
  (objGet fields key).isSome

/-- Python `d.get(k, default)`. -/
def objGetD (fields : List (String × JValue)) (key : String) (dflt : JValue) : JValue :=
  (objGet fields key).getD dflt

/-- Removal of a key, Python `d.pop(k, None)` on a copy: every binding of
the key disappears (dictionaries have unique keys, so at most one). -/
def objRemove (fields : List (String × JValue)) (key : String) : List (String × JValue) :=
  fields.filter (fun kv => kv.1 ≠ key)

/-- Insertion `d[k] = v` keeping the position of an existing key
(Python dictionaries keep first-insertion order). -/
def objInsert : List (String × JValue) → String → JValue → List (String × JValue)
  | [], key, v => [(key, v)]
  | (k, w) :: rest, key, v =>
      if k = key then (k, v) :: rest else (k, w) :: objInsert rest key v

/-- Prefix test on character lists. -/
def listPrefixB : List Char → List Char → Bool
  | [], _ => true
  | _ :: _, [] => false
  | a :: as, b :: bs => a == b && listPrefixB as bs

/-- Occurrence test of `n` somewhere inside `hay`. -/
def listInfixB (n : List Char) : List Char → Bool
  | [] => n.isEmpty
  | c :: rest => listPrefixB n (c :: rest) || listInfixB n rest

/-- Case-sensitive substring test, Python `needle in hay`. -/
def substrB (needle hay : String) : Bool :=
  listInfixB needle.data hay.data

/-- Model of `str.lower()` (`String.toLower`): lowercase every
character. -/
def lowerStr (s : String) : String :=
  ⟨s.data.map Char.toLower⟩

/-- Model of `str.startswith(pre)` (`String.startsWith`). -/
def startsWithB (s pre : String) : Bool :=
  listPrefixB pre.data s.data

/-- Replacement of every non-overlapping occurrence of `pat` (assumed
non-empty), Python `str.replace`. -/
def replaceAux (pat repl : List Char) : Nat → List Char → List Char
  | 0, l => l
  | _ + 1, [] => []
  | fuel + 1, c :: rest =>
      if listPrefixB pat (c :: rest) then
        repl ++ replaceAux pat repl fuel ((c :: rest).drop pat.length)
      else c :: replaceAux pat repl fuel rest

/-- Model of `str.replace(pat, repl)` for a non-empty pattern. -/
def replaceStr (s pat repl : String) : String :=
  ⟨replaceAux pat.data repl.data s.length s.data⟩

/-- Decimal digits of a natural number, helper for `pyStrInt`. -/
def natDigits (fuel : Nat) (m : Nat) (acc : String) : String :=
  match fuel with
  | 0 => acc
  | fuel + 1 =>
      let d := Char.ofNat (m % 10 + 48)
      let acc := String.singleton d ++ acc
      if m / 10 = 0 then acc else natDigits fuel (m / 10) acc

/-- Model of Python `str()` on an integer: usual decimal notation. -/
def pyStrInt (n : Int) : String :=
  (if n < 0 then "-" else "") ++ natDigits (n.natAbs + 1) n.natAbs ""

/-- Escaping of one character inside a Python string `repr`, for the
chosen quote character: backslash, the quote, newline, carriage return
and tab are escaped, everything else is kept. -/
def pyEscapeChar (q : Char) (c : Char) : List Char :=
  if c = '\\' then ['\\', '\\']
  else if c = q then ['\\', q]
  else if c = '\n' then ['\\', 'n']
  else if c = '\r' then ['\\', 'r']
  else if c = '\t' then ['\\', 't']
  else [c]

/-- Quote character chosen by Python `repr` for a string: single quotes,
unless the string contains a single quote and no double quote. -/
def pyQuoteChar (s : String) : Char :=
  if s.data.contains '\'' ∧ ¬ s.data.contains '"' then '"' else '\''

/-- Model of Python `repr` on a string (as used by `str()` on a
container): quoted and escaped. -/
def pyReprStr (s : String) : String :=
  let q := pyQuoteChar s
  String.singleton q ++ ⟨s.data.flatMap (pyEscapeChar q)⟩ ++ String.singleton q

mutual

/-- Model of Python `repr` on a value (which is what `str()` applies to
the elements of a container): strings are quoted, `True`/`False`/`None`
spelt the Python way, dictionaries and lists in literal notation. -/
def pyRepr : JValue → String
  | .str s => pyReprStr s
  | .num n => pyStrInt n
  | .bool b => if b then "True" else "False"
  | .null => "None"
  | .obj fields => "\x7b" ++ pyReprFields fields ++ "\x7d"
  | .arr items => "[" ++ pyReprItems items ++ "]"

/-- Comma-separated `key: value` renderings of dictionary fields. -/
def pyReprFields : List (String × JValue) → String
  | [] => ""
  | [(k, v)] => pyReprStr k ++ ": " ++ pyRepr v
  | (k, v) :: rest => pyReprStr k ++ ": " ++ pyRepr v ++ ", " ++ pyReprFields rest

/-- Comma-separated renderings of list items. -/
def pyReprItems : List JValue → String
  | [] => ""
  | [v] => pyRepr v
  | v :: rest => pyRepr v ++ ", " ++ pyReprItems rest

end

/-- Model of Python `str()` at top level: a string is itself, anything
else renders as its `repr`. -/
def pyStr : JValue → String
  | .str s => s
  | v => pyRepr v

/-! ### Model of `json.loads`

A fuel-indexed recursive-descent parser for the JSON subset carried by
`JValue` (objects, arrays, strings with escapes, integers, booleans,
null).  Python's `json.loads` additionally accepts fractional/exponent
numbers (floats), which are outside the value model and make the parse
fail here; none of the payloads considered below contains them. -/

/-- JSON whitespace accepted between tokens by `json.loads`. -/
def isJsonWs (c : Char) : Bool :=
  c = ' ' || c = '\t' || c = '\n' || c = '\r'

/-- Skip JSON whitespace. -/
def skipWs : List Char → List Char
  | [] => []
  | c :: rest => if isJsonWs c then skipWs rest else c :: rest

/-- Value of a hexadecimal digit. -/
def hexVal (c : Char) : Option Nat :=
  if '0' ≤ c ∧ c ≤ '9' then some (c.toNat - 48)
  else if 'a' ≤ c ∧ c ≤ 'f' then some (c.toNat - 87)
  else if 'A' ≤ c ∧ c ≤ 'F' then some (c.toNat - 55)
  else none

/-- Body of a JSON string literal after the opening quote; returns the
decoded string and the input following the closing quote.  Unescaped
control characters are rejected, as by `json.loads` in strict mode. -/
def parseJsonStrAux : List Char → List Char → Option (String × List Char)
  | acc, '"' :: rest => some (⟨acc.reverse⟩, rest)
  | acc, '\\' :: e :: rest =>
      match e with
      | '"' => parseJsonStrAux ('"' :: acc) rest
      | '\\' => parseJsonStrAux ('\\' :: acc) rest
      | '/' => parseJsonStrAux ('/' :: acc) rest
      | 'b' => parseJsonStrAux ('\x08' :: acc) rest
      | 'f' => parseJsonStrAux ('\x0c' :: acc) rest
      | 'n' => parseJsonStrAux ('\n' :: acc) rest
      | 'r' => parseJsonStrAux ('\r' :: acc) rest
      | 't' => parseJsonStrAux ('\t' :: acc) rest
      | 'u' =>
          match rest with
          | a :: b :: c :: d :: rest' =>
              match hexVal a, hexVal b, hexVal c, hexVal d with
              | some ha, some hb, some hc, some hd =>
                  let n := ((ha * 16 + hb) * 16 + hc) * 16 + hd
                  parseJsonStrAux (Char.ofNat n :: acc) rest'
              | _, _, _, _ => none
          | _ => none
      | _ => none
  | _, ['\\'] => none
  | acc, c :: rest => if c.toNat < 32 then none else parseJsonStrAux (c :: acc) rest
  | _, [] => none

/-- Numeric value of a run of decimal digit characters. -/
def digitsToNat (l : List Char) : Nat :=
  l.foldl (fun acc c => acc * 10 + (c.toNat - 48)) 0

/-- JSON integer literal (sign and digits, no leading zeros); fractional
or exponent parts are outside the value model and fail. -/
def parseJsonNum (l : List Char) : Option (Int × List Char) :=
  let (neg, l1) := match l with
    | '-' :: rest => (true, rest)
    | _ => (false, l)
  let ds := l1.takeWhile Char.isDigit
  let rest := l1.drop ds.length
  if ds.isEmpty then none
  else if ds.length > 1 ∧ ds.headI = '0' then none
  else match rest with
    | '.' :: _ => none
    | 'e' :: _ => none
    | 'E' :: _ => none
    | _ =>
        let n : Int := Int.ofNat (digitsToNat ds)
        some (if neg then -n else n, rest)

mutual

/-- One JSON value starting at the (whitespace-skipped) input. -/
def parseVal : Nat → List Char → Option (JValue × List Char)
  | 0, _ => none
  | fuel + 1, l =>
      match skipWs l with
      | '"' :: rest => (parseJsonStrAux [] rest).map (fun p => (.str p.1, p.2))
      | '\x7b' :: rest =>
          (match skipWs rest with
           | '\x7d' :: rest' => some (.obj [], rest')
           | l' => parseMembers fuel [] l')
      | '[' :: rest =>
          (match skipWs rest with
           | ']' :: rest' => some (.arr [], rest')
           | l' => parseElems fuel [] l')
      | 't' :: 'r' :: 'u' :: 'e' :: rest => some (.bool true, rest)
      | 'f' :: 'a' :: 'l' :: 's' :: 'e' :: rest => some (.bool false, rest)
      | 'n' :: 'u' :: 'l' :: 'l' :: rest => some (.null, rest)
      | l' => (parseJsonNum l').map (fun p => (.num p.1, p.2))

/-- Members of a JSON object after the opening brace (non-empty case);
duplicate keys keep the first position and the last value, as in
CPython. -/
def parseMembers : Nat → List (String × JValue) → List Char → Option (JValue × List Char)
  | 0, _, _ => none
  | fuel + 1, acc, l =>
      match skipWs l with
      | '"' :: rest =>
          match parseJsonStrAux [] rest with
          | some (k, r1) =>
              (match skipWs r1 with
               | ':' :: r2 =>
                   (match parseVal fuel r2 with
                    | some (v, r3) =>
                        let acc' := objInsert acc k v
                        (match skipWs r3 with
                         | ',' :: r4 => parseMembers fuel acc' r4
                         | '\x7d' :: r4 => some (.obj acc', r4)
                         | _ => none)
                    | none => none)
               | _ => none)
          | none => none
      | _ => none

/-- Elements of a JSON array after the opening bracket (non-empty
case). -/
def parseElems : Nat → List JValue → List Char → Option (JValue × List Char)
  | 0, _, _ => none
  | fuel + 1, acc, l =>
      match parseVal fuel l with
      | some (v, r1) =>
          (match skipWs r1 with
           | ',' :: r2 => parseElems fuel (acc ++ [v]) r2
           | ']' :: r2 => some (.arr (acc ++ [v]), r2)
           | _ => none)
      | none => none

end

/-- Model of `json.loads`: parse one value and require that only
whitespace follows. -/
def jsonParse (s : String) : Option JValue :=
  match parseVal (3 * s.length + 16) s.data with
  | some (v, rest) => if (skipWs rest).isEmpty then some v else none
  | none => none

/-! ### Model of `json.dumps(..., indent=2)` -/

/-- Hexadecimal digit character. -/
def hexDigit (n : Nat) : Char :=
  if n < 10 then Char.ofNat (n + 48) else Char.ofNat (n + 87)

/-- JSON escaping of one character as `json.dumps` performs it with the
default `ensure_ascii=True`. -/
def jsonEscapeChar (c : Char) : List Char :=
  if c = '"' then ['\\', '"']
  else if c = '\\' then ['\\', '\\']
  else if c = '\n' then ['\\', 'n']
  else if c = '\r' then ['\\', 'r']
  else if c = '\t' then ['\\', 't']
  else if c = '\x08' then ['\\', 'b']
  else if c = '\x0c' then ['\\', 'f']
  else if c.toNat < 32 ∨ c.toNat > 126 then
    ['\\', 'u', hexDigit (c.toNat / 4096 % 16), hexDigit (c.toNat / 256 % 16),
     hexDigit (c.toNat / 16 % 16), hexDigit (c.toNat % 16)]
  else [c]

/-- JSON string literal rendering. -/
def jsonDumpsStr (s : String) : String :=
  "\"" ++ ⟨s.data.flatMap jsonEscapeChar⟩ ++ "\""

/-- Spaces for one indentation level. -/
def indentStr (n : Nat) : String :=
  ⟨List.replicate n ' '⟩

mutual

/-- Model of `json.dumps(v, indent=2)` at indentation depth `ind`. -/
def jsonDumps (ind : Nat) : JValue → String
  | .str s => jsonDumpsStr s
  | .num n => pyStrInt n
  | .bool b => if b then "true" else "false"
  | .null => "null"
  | .obj [] => "\x7b\x7d"
  | .obj fields =>
      "\x7b\n" ++ jsonDumpsFields (ind + 2) fields ++ "\n" ++ indentStr ind ++ "\x7d"
  | .arr [] => "[]"
  | .arr items =>
      "[\n" ++ jsonDumpsItems (ind + 2) items ++ "\n" ++ indentStr ind ++ "]"

/-- Indented `"key": value` lines of an object. -/
def jsonDumpsFields (ind : Nat) : List (String × JValue) → String
  | [] => ""
  | [(k, v)] => indentStr ind ++ jsonDumpsStr k ++ ": " ++ jsonDumps ind v
  | (k, v) :: rest =>
      indentStr ind ++ jsonDumpsStr k ++ ": " ++ jsonDumps ind v ++ ",\n"
        ++ jsonDumpsFields ind rest

/-- Indented item lines of an array. -/
def jsonDumpsItems (ind : Nat) : List JValue → String
  | [] => ""
  | [v] => indentStr ind ++ jsonDumps ind v
  | v :: rest => indentStr ind ++ jsonDumps ind v ++ ",\n" ++ jsonDumpsItems ind rest

end

/-! ### Small Python library models -/

/-- Python whitespace as used by `str.strip()` and the `\s` regex
class. -/
def isPySpace (c : Char) : Bool :=
  c = ' ' || c = '\t' || c = '\n' || c = '\r' || c = '\x0b' || c = '\x0c'

/-- Strip the characters of `set` from both ends of a character list,
Python `str.strip(chars)`. -/
def stripChars (set : List Char) (l : List Char) : List Char :=
  ((l.dropWhile (set.contains ·)).reverse.dropWhile (set.contains ·)).reverse

/-- Python `str.strip()` (whitespace). -/
def pyStripWs (s : String) : String :=
  ⟨(s.data.dropWhile isPySpace).reverse.dropWhile isPySpace |>.reverse⟩

/-- Python `.strip('"\'')`, used on the third wait-on regex group. -/
def stripQuotes (s : String) : String :=
  ⟨stripChars ['"', '\''] s.data⟩

/-- Model of Python `int(x)` on the values reaching it in the tool:
integers stay, booleans count as 0/1, strings parse as an optionally
signed decimal integer after stripping whitespace; anything else (and a
malformed string) raises, modelled by `none`. -/
def pyInt : JValue → Option Int
  | .num n => some n
  | .bool b => some (if b then 1 else 0)
  | .str s =>
      let l := stripChars [' ', '\t', '\n', '\r', '\x0b', '\x0c'] s.data
      let (neg, l1) := match l with
        | '+' :: rest => (false, rest)
        | '-' :: rest => (true, rest)
        | _ => (false, l)
      if l1.isEmpty ∨ ¬ l1.all Char.isDigit then none
      else
        let n : Int := Int.ofNat (digitsToNat l1)
        some (if neg then -n else n)
  | _ => none

/-! ### Models of the fixed `re` patterns

Each `re.search` call of `debug_tool.py` uses a fixed pattern whose
backtracking on any input is deterministic; each is modelled by a
matcher that attempts the pattern at one position, combined with a
left-to-right scan (`re.search` returns the leftmost match). -/

/-- Leftmost-position scan driving a positional matcher, the semantics
of `re.search`. -/
def scanFor (f : List Char → Option α) : List Char → Option α
  | [] => none
  | c :: rest =>
      match f (c :: rest) with
      | some r => some r
      | none => scanFor f rest

/-- Case-insensitive literal match (pattern given in lowercase); returns
the remaining input. -/
def ciPrefix : List Char → List Char → Option (List Char)
  | [], l => some l
  | _ :: _, [] => none
  | p :: ps, c :: rest => if c.toLower = p then ciPrefix ps rest else none

/-- Consume one optional double quote, the `"?` of the patterns. -/
def optQuote : List Char → List Char
  | '"' :: rest => rest
  | l => l

/-- Pattern 1 of wait-on detection at one position:
`"?wait_on"?\s*:\s*"([^"]+)"` (IGNORECASE); returns the group. -/
def w1At (l : List Char) : Option String := do
  let l1 ← ciPrefix "wait_on".data (optQuote l)
  let l2 := (optQuote l1).dropWhile isPySpace
  match l2 with
  | ':' :: l3 =>
      match l3.dropWhile isPySpace with
      | '"' :: l4 =>
          let grp := l4.takeWhile (· ≠ '"')
          let rest := l4.drop grp.length
          match rest with
          | '"' :: _ => if grp.isEmpty then none else some ⟨grp⟩
          | _ => none
      | _ => none
  | _ => none

/-- Pattern 2 of wait-on detection at one position:
`\$[^"]+\.wait_on"\s*:\s*"([^"]+)"` (IGNORECASE). -/
def w2At (l : List Char) : Option String :=
  match l with
  | '$' :: l1 =>
      let body := l1.takeWhile (· ≠ '"')
      let rest := l1.drop body.length
      if body.length ≥ 9 ∧
          (body.drop (body.length - 8)).map Char.toLower = ".wait_on".data then
        match rest with
        | '"' :: r1 =>
            (match r1.dropWhile isPySpace with
             | ':' :: r2 =>
                 (match r2.dropWhile isPySpace with
                  | '"' :: r3 =>
                      let grp := r3.takeWhile (· ≠ '"')
                      let r4 := r3.drop grp.length
                      (match r4 with
                       | '"' :: _ => if grp.isEmpty then none else some ⟨grp⟩
                       | _ => none)
                  | _ => none)
             | _ => none)
        | _ => none
      else none
  | _ => none

/-- Pattern 3 of wait-on detection at one position:
`wait_on[=:]\s*([^\s,}\]]+)` (IGNORECASE); the caller strips quotes from
the group. -/
def w3At (l : List Char) : Option String := do
  let l1 ← ciPrefix "wait_on".data l
  match l1 with
  | c :: l2 =>
      if c = '=' ∨ c = ':' then
        let l3 := l2.dropWhile isPySpace
        let grp := l3.takeWhile (fun d => ¬ isPySpace d ∧ d ≠ ',' ∧ d ≠ '\x7d' ∧ d ≠ ']')
        if grp.isEmpty then none else some ⟨grp⟩
      else none
  | [] => none

/-- Pattern 1 of status-code detection at one position:
`"?statuscode"?\s*:\s*(\d+)` (IGNORECASE). -/
def s1At (l : List Char) : Option String := do
  let l1 ← ciPrefix "statuscode".data (optQuote l)
  let l2 := (optQuote l1).dropWhile isPySpace
  match l2 with
  | ':' :: l3 =>
      let l4 := l3.dropWhile isPySpace
      let grp := l4.takeWhile Char.isDigit
      if grp.isEmpty then none else some ⟨grp⟩
  | _ => none

/-- Pattern 2 of status-code detection at one position:
`status[_\s]code\s*[:=]\s*(\d+)` (IGNORECASE). -/
def s2At (l : List Char) : Option String := do
  let l1 ← ciPrefix "status".data l
  match l1 with
  | c :: l2 =>
      if c = '_' ∨ isPySpace c then do
        let l3 ← ciPrefix "code".data l2
        match l3.dropWhile isPySpace with
        | d :: l4 =>
            if d = ':' ∨ d = '=' then
              let l5 := l4.dropWhile isPySpace
              let grp := l5.takeWhile Char.isDigit
              if grp.isEmpty then none else some ⟨grp⟩
            else none
        | [] => none
      else none
  | [] => none

/-- Pattern 3 of status-code detection at one position:
`status[:\s]+([4-5]\d{2})` (IGNORECASE). -/
def s3At (l : List Char) : Option String := do
  let l1 ← ciPrefix "status".data l
  let sep := l1.takeWhile (fun c => c = ':' || isPySpace c)
  if sep.isEmpty then none
  else
    match l1.drop sep.length with
    | a :: b :: c :: _ =>
        if (a = '4' ∨ a = '5') ∧ b.isDigit ∧ c.isDigit then some ⟨[a, b, c]⟩
        else none
    | _ => none

/-- Uppercase alphanumeric, the `[A-Z0-9]` class of the session-id
pattern. -/
def isUpperAlnum (c : Char) : Bool :=
  c.isDigit || ('A' ≤ c && c ≤ 'Z')

/-- Session-id pattern of `_extract_session_id_from_smartflow` at one
position: `\d{10}-\d+-SR-\d+-\d+[A-Z0-9]+-[A-Z0-9]+`; returns the whole
match. -/
def sessionIdAt (l : List Char) : Option String :=
  let ten := l.take 10
  if ten.length = 10 ∧ ten.all Char.isDigit then
    match l.drop 10 with
    | '-' :: l1 =>
        let d1 := l1.takeWhile Char.isDigit
        if d1.isEmpty then none
        else
          match l1.drop d1.length with
          | '-' :: 'S' :: 'R' :: '-' :: l2 =>
              let d2 := l2.takeWhile Char.isDigit
              if d2.isEmpty then none
              else
                match l2.drop d2.length with
                | '-' :: l3 =>
                    let run := l3.takeWhile isUpperAlnum
                    if run.length ≥ 2 ∧ (run.headI.isDigit) then
                      match l3.drop run.length with
                      | '-' :: l4 =>
                          let fin := l4.takeWhile isUpperAlnum
                          if fin.isEmpty then none
                          else
                            some ⟨ten ++ '-' :: d1 ++ '-' :: 'S' :: 'R' :: '-' :: d2
                                  ++ '-' :: run ++ '-' :: fin⟩
                      | _ => none
                    else none
                | _ => none
          | _ => none
    | _ => none
  else none

/-- The session-id `re.search` over a whole string. -/
def sessionIdSearch (s : String) : Option String :=
  scanFor sessionIdAt s.data

/-! ### The signal detector `recursive_search` (debug_tool.py lines 47-77)

The Python function returns a found value or `None`; a found value that
is itself `None` is indistinguishable from "not found" for every caller
(and stops neither loop of a parent frame), which the `Option` result
mirrors through `pyOpt`. -/

/-- View of a returned Python value as an optional result: `None`
collapses to `none`. -/
def pyOpt : JValue → Option JValue
  | .null => none
  | v => some v

/-- Key filter of both loops: a child whose key is `SessionData` is
skipped entirely when `skip_session_data` is set. -/
def keptKey (skip : Bool) (k : String) : Bool :=
  !(skip && k == "SessionData")

/-- Fuel-indexed core of `recursive_search`; the fuel is
`max_depth - current_depth`.  On a mapping, first every (kept) key of
the level is tested for a case-insensitive substring match and the first
matching key's value is returned; only if none matches are the (kept)
children searched in order, keeping the first non-`None` result; on a
sequence, the items are searched in order. -/
def rsearch (key : String) (skip : Bool) : Nat → JValue → Option JValue
  | 0, _ => none
  | fuel + 1, .obj fields =>
      match fields.find? (fun kv => keptKey skip kv.1 && substrB key (lowerStr kv.1)) with
      | some kv => pyOpt kv.2
      | none =>
          (fields.filter (fun kv => keptKey skip kv.1)).findSome?
            (fun kv => rsearch key skip fuel kv.2)
  | fuel + 1, .arr items => items.findSome? (fun it => rsearch key skip fuel it)
  | _ + 1, _ => none

/-- `recursive_search(obj, search_key, max_depth, current_depth,
skip_session_data)`: the depth guard `current_depth >= max_depth`
corresponds to exhausted fuel. -/
def recursive_search (obj : JValue) (search_key : String) (max_depth : Nat := 10)
    (current_depth : Nat := 0) (skip_session_data : Bool := false) : Option JValue :=
  rsearch search_key skip_session_data (max_depth - current_depth) obj

/-! ### `LogEntry._detect_important_fields` (debug_tool.py lines 42-175) -/

/-- Shape test `isinstance(x, (dict, list))`. -/
def isDictOrList : JValue → Bool
  | .obj _ => true
  | .arr _ => true
  | _ => false

/-- Shape test `isinstance(x, (int, str))` (Python booleans are
integers). -/
def isIntOrStr : JValue → Bool
  | .num _ => true
  | .bool _ => true
  | .str _ => true
  | _ => false

/-- The four derived fields computed by `_detect_important_fields`. -/
structure DetectResult where
  has_wait_on : Bool
  wait_on_value : Option String
  has_error : Bool
  error_code : Option Int

/-- Combined string scanned by the detector:
`str(content) if content else ''` plus a space plus
`str(metadata) if metadata else ''`. -/
def combinedStr (content metadata : JValue) : String :=
  (if pyTruthy content then pyStr content else "")
    ++ " " ++ (if pyTruthy metadata then pyStr metadata else "")

/-- SessionData-stripped string used by the wait-on regex fallback
(lines 100-121): when the combined string contains a brace, a top-level
`SessionData` key of a dict-shaped (or JSON-object-string) content is
removed and the remaining dict re-stringified; in every other case the
combined string is kept (a JSON parse failure is swallowed by the bare
`except`). -/
def contentWithoutSessionData (content metadata : JValue) : String :=
  let combined := combinedStr content metadata
  if substrB "\x7b" combined then
    match content with
    | .str s =>
        if startsWithB (pyStripWs s) "\x7b" then
          match jsonParse s with
          | some (.obj fields) =>
              if objHasKey fields "SessionData" then
                pyStr (.obj (objRemove fields "SessionData"))
              else combined
          | _ => combined
        else combined
    | .obj fields =>
        if objHasKey fields "SessionData" then
          pyStr (.obj (objRemove fields "SessionData"))
        else combined
    | _ => combined
  else combined

/-- Wait-on regex fallback (lines 123-137): pattern 1, then pattern 2,
then pattern 3 with its quote-stripped group. -/
def waitOnFallback (s : String) : Option String :=
  match scanFor w1At s.data with
  | some g => some g
  | none =>
      match scanFor w2At s.data with
      | some g => some g
      | none =>
          match scanFor w3At s.data with
          | some g => some (stripQuotes g)
          | none => none

/-- Status-code regex fallback (lines 158-175): the three patterns in
order; a match sets the error only when the parsed code is at least
400. -/
def statusFallback (s : String) : Option Int :=
  let grp :=
    match scanFor s1At s.data with
    | some g => some g
    | none =>
        match scanFor s2At s.data with
        | some g => some g
        | none => scanFor s3At s.data
  match grp with
  | some g =>
      let c : Int := Int.ofNat (digitsToNat g.data)
      if 400 ≤ c then some c else none
  | none => none

/-- Structural wait-on search of lines 88-97: content first, then (when
nothing truthy was found) metadata, both excluding `SessionData`; only a
truthy result is recorded, stringified. -/
def waitOnStructural (content metadata : JValue) : Option String :=
  let fromContent : Option String :=
    if isDictOrList content then
      match recursive_search content "wait_on" 10 0 true with
      | some r => if pyTruthy r then some (pyStr r) else none
      | none => none
    else none
  if strOptTruthy fromContent then fromContent
  else if isDictOrList metadata then
    match recursive_search metadata "wait_on" 10 0 true with
    | some r => if pyTruthy r then some (pyStr r) else fromContent
    | none => fromContent
  else fromContent

/-- Structural status-code search of lines 146-155:
`recursive_search(content, 'statuscode') or recursive_search(content,
'status_code')` (Python `or`: a falsy left result falls through), kept
when the value is a truthy int/str whose `int()` is at least 400. -/
def statusStructural (content : JValue) : Option Int :=
  if isDictOrList content then
    let a := recursive_search content "statuscode" 10 0 true
    let sc : Option JValue :=
      match a with
      | some v => if pyTruthy v then some v else recursive_search content "status_code" 10 0 true
      | none => recursive_search content "status_code" 10 0 true
    match sc with
    | some v =>
        if pyTruthy v ∧ isIntOrStr v then
          match pyInt v with
          | some c => if 400 ≤ c then some c else none
          | none => none
        else none
    | none => none
  else none

/-- Full translation of `_detect_important_fields`: the wait-on pipeline
runs only when `wait_on` occurs in the lowered combined string; the
final flag is the truthiness of the recorded value (lines 139-143).  The
error pipeline runs the structural search and then, only when no error
was flagged, the regex fallback over the (unstripped) combined
string. -/
def detect_important_fields (content metadata : JValue) : DetectResult :=
  let combined := combinedStr content metadata
  let wv : Option String :=
    if substrB "wait_on" (lowerStr combined) then
      let wvStruct := waitOnStructural content metadata
      if strOptTruthy wvStruct then wvStruct
      else
        match waitOnFallback (contentWithoutSessionData content metadata) with
        | some g => some g
        | none => wvStruct
    else none
  let has_wait_on := if substrB "wait_on" (lowerStr combined) then strOptTruthy wv else false
  let err : Option Int :=
    match statusStructural content with
    | some c => some c
    | none => statusFallback combined
  { has_wait_on := has_wait_on
    wait_on_value := wv
    has_error := err.isSome
    error_code := err }

/-! ### `LogEntry` (debug_tool.py lines 16-40) -/

/-- Unified log entry; the derived fields are filled by
`mkLogEntry` exactly as `__post_init__` does. -/
structure LogEntry where
  timestamp : JValue
  source : String
  session_id : JValue
  log_type : JValue
  content : JValue
  block_id : JValue
  turn_id : JValue
  transaction_id : JValue
  role : JValue
  message_type : JValue
  metadata : JValue
  has_wait_on : Bool
  has_error : Bool
  error_code : Option Int
  wait_on_value : Option String

/-- Construction of a `LogEntry`: `__post_init__` replaces a `None`
metadata by an empty dict and runs `_detect_important_fields`. -/
def mkLogEntry (timestamp : JValue) (source : String) (session_id log_type content : JValue)
    (block_id : JValue := .null) (turn_id : JValue := .null)
    (transaction_id : JValue := .null) (role : JValue := .null)
    (message_type : JValue := .null) (metadata : JValue := .null) : LogEntry :=
  let metadata := match metadata with
    | .null => .obj []
    | m => m
  let d := detect_important_fields content metadata
  { timestamp := timestamp
    source := source
    session_id := session_id
    log_type := log_type
    content := content
    block_id := block_id
    turn_id := turn_id
    transaction_id := transaction_id
    role := role
    message_type := message_type
    metadata := metadata
    has_wait_on := d.has_wait_on
    has_error := d.has_error
    error_code := d.error_code
    wait_on_value := d.wait_on_value }

/-! ### `_parse_timestamp` (debug_tool.py lines 458-475)

`datetime.strptime` is modelled for the three formats of the source,
following CPython's per-directive regexes (`%Y` four digits, ranged
one-or-two-digit fields, `%f` one to six digits zero-padded on the
right) with full-input consumption and the `datetime` range
validation. -/

/-- Digit value of a character. -/
def digitVal (c : Char) : Nat := c.toNat - 48

/-- `%Y`: exactly four digits. -/
def pYear : List Char → Option (Nat × List Char)
  | a :: b :: c :: d :: rest =>
      if a.isDigit ∧ b.isDigit ∧ c.isDigit ∧ d.isDigit then
        some (((digitVal a * 10 + digitVal b) * 10 + digitVal c) * 10 + digitVal d, rest)
      else none
  | _ => none

/-- `%m`: `1[0-2]|0[1-9]|[1-9]`, alternatives in CPython's order. -/
def pMonth : List Char → Option (Nat × List Char)
  | '1' :: c :: rest =>
      if '0' ≤ c ∧ c ≤ '2' then some (10 + digitVal c, rest)
      else some (1, c :: rest)
  | '0' :: c :: rest =>
      if '1' ≤ c ∧ c ≤ '9' then some (digitVal c, rest) else none
  | c :: rest =>
      if '1' ≤ c ∧ c ≤ '9' then some (digitVal c, rest) else none
  | [] => none

/-- `%d`: `3[01]|[12]\d|0[1-9]|[1-9]`. -/
def pDay : List Char → Option (Nat × List Char)
  | '3' :: c :: rest =>
      if c = '0' ∨ c = '1' then some (30 + digitVal c, rest)
      else some (3, c :: rest)
  | '1' :: c :: rest =>
      if c.isDigit then some (10 + digitVal c, rest) else some (1, c :: rest)
  | '2' :: c :: rest =>
      if c.isDigit then some (20 + digitVal c, rest) else some (2, c :: rest)
  | '0' :: c :: rest =>
      if '1' ≤ c ∧ c ≤ '9' then some (digitVal c, rest) else none
  | c :: rest =>
      if '1' ≤ c ∧ c ≤ '9' then some (digitVal c, rest) else none
  | [] => none

/-- `%H`: `2[0-3]|[0-1]\d|\d`. -/
def pHour : List Char → Option (Nat × List Char)
  | '2' :: c :: rest =>
      if '0' ≤ c ∧ c ≤ '3' then some (20 + digitVal c, rest) else some (2, c :: rest)
  | '0' :: c :: rest =>
      if c.isDigit then some (digitVal c, rest) else some (0, c :: rest)
  | '1' :: c :: rest =>
      if c.isDigit then some (10 + digitVal c, rest) else some (1, c :: rest)
  | c :: rest =>
      if c.isDigit then some (digitVal c, rest) else none
  | [] => none

/-- `%M` and `%S`: `[0-5]\d|\d`. -/
def pMinSec : List Char → Option (Nat × List Char)
  | a :: b :: rest =>
      if '0' ≤ a ∧ a ≤ '5' ∧ b.isDigit then some (digitVal a * 10 + digitVal b, rest)
      else if a.isDigit then some (digitVal a, b :: rest)
      else none
  | [a] => if a.isDigit then some (digitVal a, []) else none
  | [] => none

/-- `%f`: one to six digits, zero-padded on the right to
microseconds. -/
def pFrac (l : List Char) : Option (Nat × List Char) :=
  let ds := (l.takeWhile Char.isDigit).take 6
  if ds.isEmpty then none
  else some (digitsToNat ds * 10 ^ (6 - ds.length), l.drop ds.length)

/-- Leap-year rule of the Gregorian calendar. -/
def isLeapYear (y : Nat) : Bool :=
  y % 4 = 0 && (y % 100 ≠ 0 || y % 400 = 0)

/-- Days in a month, for the `datetime` constructor's validation. -/
def daysInMonth (y m : Nat) : Nat :=
  if m = 2 then (if isLeapYear y then 29 else 28)
  else if m = 4 ∨ m = 6 ∨ m = 9 ∨ m = 11 then 30
  else 31

/-- Encoding of a date-time as one comparable ordinal (the encoding is
strictly monotone over the in-range components). -/
def dtKey (y m d h mi s us : Nat) : Nat :=
  (((((y * 13 + m) * 32 + d) * 24 + h) * 60 + mi) * 60 + s) * 1000000 + us

/-- Ordinal of `datetime.min`. -/
def dtMin : Nat := dtKey 1 1 1 0 0 0 0

/-- Tail of a parsed timestamp: for the `Z`-suffixed format the
remaining input must be a literal `Z`; the whole string must then be
consumed (`strptime` rejects unconverted data). -/
def dtTail (zSuffix : Bool) : List Char → Option Unit
  | [] => if zSuffix then none else some ()
  | 'Z' :: r => if zSuffix ∧ r.isEmpty then some () else none
  | _ => none

/-- Validation performed by the `datetime` constructor on the parsed
components. -/
def dtValid (y m d : Nat) : Bool :=
  1 ≤ y && y ≤ 9999 && 1 ≤ m && m ≤ 12 && 1 ≤ d && d ≤ daysInMonth y m

/-- One `strptime` format of the source: date, separator (`T` or
space), time with fractional seconds, optional trailing `Z`; the whole
string must be consumed and the date must be constructible. -/
def strptimeDT (sep : Char) (zSuffix : Bool) (s : String) : Option Nat :=
  match pYear s.data with
  | none => none
  | some (y, l1) =>
      match l1 with
      | '-' :: l2 =>
          match pMonth l2 with
          | none => none
          | some (m, l3) =>
              match l3 with
              | '-' :: l4 =>
                  match pDay l4 with
                  | none => none
                  | some (d, l5) =>
                      match l5 with
                      | c :: l6 =>
                          if c = sep then
                            match pHour l6 with
                            | none => none
                            | some (h, l7) =>
                                match l7 with
                                | ':' :: l8 =>
                                    match pMinSec l8 with
                                    | none => none
                                    | some (mi, l9) =>
                                        match l9 with
                                        | ':' :: l10 =>
                                            match pMinSec l10 with
                                            | none => none
                                            | some (sec, l11) =>
                                                match l11 with
                                                | '.' :: l12 =>
                                                    match pFrac l12 with
                                                    | none => none
                                                    | some (us, l13) =>
                                                        match dtTail zSuffix l13 with
                                                        | none => none
                                                        | some _ =>
                                                            if dtValid y m d then
                                                              some (dtKey y m d h mi sec us)
                                                            else none
                                                | _ => none
                                        | _ => none
                                | _ => none
                          else none
                      | [] => none
              | _ => none
      | _ => none

/-- The ordered format list of `_parse_timestamp`. -/
def tryFormats (s : String) : Option Nat :=
  match strptimeDT 'T' true s with
  | some k => some k
  | none =>
      match strptimeDT ' ' false s with
      | some k => some k
      | none => strptimeDT 'T' false s

/-- `_parse_timestamp`: a falsy timestamp yields `datetime.min`; a
string is tried against the three formats (first success wins); any
failure — including a non-string value, whose `strptime` `TypeError` is
swallowed by the bare `except` — yields `datetime.min`. -/
def parse_timestamp (ts : JValue) : Nat :=
  if ¬ pyTruthy ts then dtMin
  else
    match ts with
    | .str s => (tryFormats s).getD dtMin
    | _ => dtMin

/-! ### `build_unified_timeline` and the session index
(debug_tool.py lines 448-513) -/

/-- Stable insertion of an entry into a list already sorted by
timestamp ordinal: the entry goes after every existing entry with an
ordinal less than or equal to its own, as Python's stable `sorted`
orders ties. -/
def insertByKey (e : LogEntry) : List LogEntry → List LogEntry
  | [] => [e]
  | x :: xs =>
      if parse_timestamp e.timestamp < parse_timestamp x.timestamp then e :: x :: xs
      else x :: insertByKey e xs

/-- Stable sort by timestamp ordinal, the model of
`sorted(all_logs, key=...)`. -/
def sortByTimestamp (l : List LogEntry) : List LogEntry :=
  l.foldl (fun acc e => insertByKey e acc) []

/-- `build_unified_timeline`: concatenate the two adapters' outputs and
sort by normalized timestamp. -/
def build_unified_timeline (smartflow_logs blockagent_logs : List LogEntry) : List LogEntry :=
  sortByTimestamp (smartflow_logs ++ blockagent_logs)

/-- Session index: insertion-ordered buckets of entries keyed by session
id. -/
abbrev Sessions := List (JValue × List LogEntry)

/-- Append an entry to its session bucket, creating the bucket at the
end on first touch (`defaultdict(list)` insertion order). -/
def addEntryToSessions (e : LogEntry) : Sessions → Sessions
  | [] => [(e.session_id, [e])]
  | (k, l) :: rest =>
      if beqJ k e.session_id then (k, l ++ [e]) :: rest
      else (k, l) :: addEntryToSessions e rest

/-- `group_by_sessions`: every timeline entry whose session id differs
from `'unknown'` is appended to its bucket. -/
def group_by_sessions (timeline : List LogEntry) : Sessions :=
  timeline.foldl
    (fun m e => if beqJ e.session_id (.str "unknown") then m else addEntryToSessions e m) []

/-- Bucket lookup. -/
def sessionsGet (m : Sessions) (sid : JValue) : Option (List LogEntry) :=
  match m with
  | [] => none
  | (k, l) :: rest => if beqJ k sid then some l else sessionsGet rest sid

/-- `get_session_timeline`: `self.sessions.get(session_id, [])`. -/
def get_session_timeline (m : Sessions) (sid : JValue) : List LogEntry :=
  (sessionsGet m sid).getD []

/-- `get_all_sessions`: `list(self.sessions.keys())`. -/
def get_all_sessions (m : Sessions) : List JValue :=
  m.map (·.1)

/-- One conversation item of `get_conversation_summary`. -/
structure ConvItem where
  role : JValue
  content : JValue
  timestamp : JValue
  block_id : JValue
  turn_id : JValue
  metadata : JValue

/-- The dictionary returned by `get_conversation_summary`. -/
structure ConversationSummary where
  session_id : JValue
  conversation : List ConvItem
  total_entries : Nat
  smartflow_entries : Nat
  blockagent_entries : Nat

/-- Item built from an entry inside the summary loop. -/
def convItem (e : LogEntry) : ConvItem :=
  { role := e.role, content := e.content, timestamp := e.timestamp,
    block_id := e.block_id, turn_id := e.turn_id, metadata := e.metadata }

/-- Filter of the summary loop: `entry.source == 'blockagent' and
entry.role in ['user', 'assistant']`. -/
def isConversational (e : LogEntry) : Bool :=
  e.source == "blockagent" && (beqJ e.role (.str "user") || beqJ e.role (.str "assistant"))

/-- `get_conversation_summary` (lines 491-513). -/
def get_conversation_summary (m : Sessions) (sid : JValue) : ConversationSummary :=
  let entries := get_session_timeline m sid
  { session_id := sid
    conversation :=
      entries.foldl (fun acc e => if isConversational e then acc ++ [convItem e] else acc) []
    total_entries := entries.length
    smartflow_entries := (entries.filter (fun e => e.source == "smartflow")).length
    blockagent_entries := (entries.filter (fun e => e.source == "blockagent")).length }

/-- One session of the export: its id, its entries (field for field, as
`asdict` serializes them) and its summary. -/
structure SessionExport where
  session_id : JValue
  entries : List LogEntry
  summary : ConversationSummary

/-- The structure serialized by `export_to_json`: the indexed sessions
plus the two infrastructure blobs. -/
structure ExportData where
  sessions : List SessionExport
  infrastructure_blockagent : JValue
  infrastructure_smartflow : JValue

/-- `export_to_json` (lines 615-632): one record per id of
`get_all_sessions`, carrying that session's timeline and summary. -/
def export_to_json (m : Sessions) (blockagent_structure smartflow_structure : JValue) :
    ExportData :=
  { sessions :=
      (get_all_sessions m).map (fun sid =>
        { session_id := sid
          entries := get_session_timeline m sid
          summary := get_conversation_summary m sid })
    infrastructure_blockagent := blockagent_structure
    infrastructure_smartflow := smartflow_structure }

/-! ### The flow-engine adapter `load_smartflow_logs`
(debug_tool.py lines 216-346)

Paths on which the Python code raises an uncaught exception (attribute
access on a value of the wrong type, `re.search` on a non-string) are
modelled by `Except.error`. -/

/-- Python attribute-style `x.get(k, default)`: raises (errors) unless
`x` is a dictionary. -/
def pyGet (v : JValue) (k : String) (dflt : JValue) : Except Unit JValue :=
  match v with
  | .obj f => .ok (objGetD f k dflt)
  | _ => .error ()

/-- First present key of a `get`-default chain such as
`d.get('PluginId', d.get('pluginId', d.get('plugin_id', '')))`; absent
everywhere yields the empty string. -/
def pyGetChain (f : List (String × JValue)) : List String → JValue
  | [] => .str ""
  | k :: ks =>
      match objGet f k with
      | some v => v
      | none => pyGetChain f ks

/-- `_extract_session_id_from_smartflow` (lines 348-378): the structured
pattern is searched in the nested `message` string, then in the raw
message string; a dict-shaped message falls back to its `SESSION_ID`
field; otherwise the sentinel `'unknown'`.  A truthy non-string nested
`message` reaches `re.search` and raises a `TypeError` that the
`except (JSONDecodeError, ValueError)` does not catch. -/
def extract_session_id_from_smartflow (entry : JValue) : Except Unit JValue := do
  let message ← pyGet entry "message" (.str "")
  let step1 : Except Unit (Option JValue) :=
    match message with
    | .str s =>
        if startsWithB (pyStripWs s) "\x7b" then
          match jsonParse s with
          | some (.obj f) =>
              let nm := objGetD f "message" (.str "")
              if pyTruthy nm then
                match nm with
                | .str ns =>
                    (match sessionIdSearch ns with
                     | some sid => .ok (some (.str sid))
                     | none => .ok none)
                | _ => .error ()
              else .ok none
          | _ => .ok none
        else .ok none
    | _ => .ok none
  match ← step1 with
  | some sid => return sid
  | none =>
      match message with
      | .str s =>
          (match sessionIdSearch s with
           | some sid => return .str sid
           | none => return .str "unknown")
      | .obj f =>
          let sid := objGetD f "SESSION_ID" (.str "")
          if pyTruthy sid then return sid else return .str "unknown"
      | _ => return .str "unknown"

/-- Result of the nested-payload decoding steps of the adapter loop
(lines 226-290). -/
structure SmartflowDecoded where
  actual_timestamp : JValue
  message_content : JValue
  plugin_id : JValue
  log_type : JValue
  parsed_data : Option JValue
  inner_parsed_data : Option JValue

/-- Lines 226-283 of the adapter loop: parse up to two levels of nested
JSON inside the `message` field, preferring the inner object's
`PluginId`/`LogType` (synonym chains in the source's order), falling
back to the outer object and then to the record's top-level fields; the
decoded content is the inner message string, or the outer `message`
field, or the pretty-printed outer object, or the raw message. -/
def smartflowDecode (entryFields : List (String × JValue)) (message : JValue) :
    SmartflowDecoded :=
  let actual0 := objGetD entryFields "timestamp" (.str "")
  let base : SmartflowDecoded :=
    { actual_timestamp := actual0, message_content := message,
      plugin_id := .str "", log_type := .str "",
      parsed_data := none, inner_parsed_data := none }
  let d : SmartflowDecoded :=
    match message with
    | .str ms =>
        if startsWithB (pyStripWs ms) "\x7b" then
          match jsonParse ms with
          | some (.obj nf) =>
              let actual := if objHasKey nf "timestamp" then objGetD nf "timestamp" .null else actual0
              let (mc, inner) :=
                match objGet nf "message" with
                | some (.str mcs) =>
                    if startsWithB (pyStripWs mcs) "\x7b" then
                      match jsonParse mcs with
                      | some innerV@(.obj _) => (JValue.str mcs, some innerV)
                      | _ => (JValue.str mcs, none)
                    else (JValue.str mcs, none)
                | _ => (message, none)
              let (pid0, lt0) :=
                match inner with
                | some (.obj inf) =>
                    (pyGetChain inf ["PluginId", "pluginId", "plugin_id"],
                     pyGetChain inf ["LogType", "logType"])
                | _ => (JValue.str "", JValue.str "")
              let pid1 := if pyTruthy pid0 then pid0 else pyGetChain nf ["PluginId", "pluginId", "plugin_id"]
              let lt1 := if pyTruthy lt0 then lt0 else pyGetChain nf ["LogType", "logType", "level"]
              let mc1 :=
                if ¬ pyTruthy mc ∨ beqJ mc message then
                  match objGet nf "message" with
                  | some v => v
                  | none => JValue.str (jsonDumps 0 (.obj nf))
                else mc
              { actual_timestamp := actual, message_content := mc1,
                plugin_id := pid1, log_type := lt1,
                parsed_data := some (.obj nf), inner_parsed_data := inner }
          | _ => base
        else base
    | _ => base
  let pid2 := if pyTruthy d.plugin_id then d.plugin_id
    else pyGetChain entryFields ["PluginId", "pluginId", "plugin_id"]
  let lt2 := if pyTruthy d.log_type then d.log_type
    else pyGetChain entryFields ["LogType", "logType", "log_type"]
  { d with plugin_id := pid2, log_type := lt2 }

/-- Lines 292-323: recognition of a GPT-agent exchange on `EXTCALL_`
plugins; returns the role/content pair when one is recognized.  The
attribute accesses `plugin_id.startswith` / `plugin_id.replace` raise
when `plugin_id` is truthy but not a string. -/
def smartflowGpt (plugin_id log_type : JValue) (inner : Option JValue) :
    Except Unit (Option (String × JValue)) := do
  if pyTruthy plugin_id then
    match plugin_id with
    | .str pid =>
        if startsWithB pid "EXTCALL_" then
          let userTurn : Option (String × JValue) :=
            if beqJ log_type (.str "IpdOut") ∧ (inner.map pyTruthy).getD false then
              match inner with
              | some (.obj inf) =>
                  (match objGetD inf "IpdMsg" (.obj []) with
                   | .obj mf =>
                       (match objGetD mf "body" (.obj []) with
                        | .obj bf =>
                            if objHasKey bf "user_message" then
                              some ("user", objGetD bf "user_message" (.str ""))
                            else none
                        | _ => none)
                   | _ => none)
              | _ => none
            else none
          match userTurn with
          | some r => return some r
          | none =>
              if (beqJ log_type (.str "IpdIn") || beqJ log_type (.str "PluginTran"))
                  ∧ (inner.map pyTruthy).getD false then
                match inner with
                | some (.obj inf) =>
                    let ai0 := objGetD inf "ai_response" (.str "")
                    let suffix := replaceStr pid "EXTCALL_" ""
                    let ai1 :=
                      if ¬ pyTruthy ai0 then
                        match objGetD inf "SessionData" (.obj []) with
                        | .obj sf =>
                            (match sf.find? (fun kv =>
                                substrB ".ai_response" kv.1 && substrB suffix kv.1) with
                             | some kv => kv.2
                             | none => ai0)
                        | _ => ai0
                      else ai0
                    if pyTruthy ai1 then return some ("assistant", ai1) else return none
                | _ => return none
              else return none
        else return none
    | _ => .error ()
  else return none

/-- One record of `load_smartflow_logs` turned into a `LogEntry`
(lines 221-346). -/
def smartflow_entry (entry : JValue) : Except Unit LogEntry := do
  let session_id ← extract_session_id_from_smartflow entry
  let message ← pyGet entry "message" (.str "")
  match entry with
  | .obj ef =>
      let d := smartflowDecode ef message
      let has_session_data :=
        ((d.inner_parsed_data.map pyTruthy).getD false
          && (match d.inner_parsed_data with
              | some (.obj inf) => objHasKey inf "SessionData"
              | _ => false))
        || ((d.parsed_data.map pyTruthy).getD false
          && (match d.parsed_data with
              | some (.obj pf) => objHasKey pf "SessionData"
              | _ => false))
      let gpt ← smartflowGpt d.plugin_id d.log_type d.inner_parsed_data
      let gpt_role : JValue := match gpt with
        | some (r, _) => .str r
        | none => .null
      let gpt_content : JValue := match gpt with
        | some (_, c) => c
        | none => .null
      return mkLogEntry
        d.actual_timestamp
        "smartflow"
        session_id
        (if pyTruthy d.log_type then d.log_type else .str "system_log")
        (if pyTruthy gpt_content then gpt_content else d.message_content)
        .null .null .null
        gpt_role
        (objGetD ef "message_type" (.str "unknown"))
        (.obj [("host", objGetD ef "host" (.str "")),
               ("role", objGetD ef "role" (.str "")),
               ("log_file_path", objGetD ef "log_file_path" (.str "")),
               ("id", objGetD ef "id" (.str "")),
               ("ANI", objGetD ef "ANI" (.str "")),
               ("DNIS", objGetD ef "DNIS" (.str "")),
               ("PluginId", d.plugin_id),
               ("logType", d.log_type),
               ("has_session_data", .bool has_session_data),
               ("agent_type", if pyTruthy gpt_role then .str "gpt" else .null)])
  | _ => .error ()

/-- `load_smartflow_logs` over an already-`json.load`ed document: one
entry per record of the array. -/
def load_smartflow_logs (data : JValue) : Except Unit (List LogEntry) :=
  match data with
  | .arr entries => entries.mapM smartflow_entry
  | _ => .error ()

/-! ### The conversational-agent adapter `load_blockagent_logs`
(debug_tool.py lines 380-421) -/

/-- One transaction turned into a `LogEntry` (lines 398-421). -/
def blockagent_txn (session_id agent_name agent_version : JValue) (txn : JValue) :
    Except Unit LogEntry :=
  match txn with
  | .obj f =>
      .ok (mkLogEntry
        (objGetD f "created_date" (.str ""))
        "blockagent"
        session_id
        (.str "conversation")
        (objGetD f "content" (.str ""))
        (objGetD f "block_id" (.str ""))
        (objGetD f "turn_id" (.str ""))
        (objGetD f "transaction_id" (.str ""))
        (objGetD f "role" (.str ""))
        .null
        (.obj [("agent_id", objGetD f "agent_id" (.str "")),
               ("model_name", objGetD f "model_name" (.str "")),
               ("completion_tokens", objGetD f "completion_tokens" .null),
               ("prompt_tokens", objGetD f "prompt_tokens" .null),
               ("response_time", objGetD f "response_time" .null),
               ("tool_calls", objGetD f "tool_calls" (.arr [])),
               ("citations", objGetD f "citations" (.arr [])),
               ("agent_name", agent_name),
               ("agent_version", agent_version)]))
  | _ => .error ()

/-- `load_blockagent_logs` over an already-`json.load`ed document:
session id and agent name/version read once, one entry per
transaction. -/
def load_blockagent_logs (data : JValue) : Except Unit (List LogEntry) := do
  match data with
  | .obj f =>
      let session_id := objGetD f "session_id" (.str "unknown")
      let transactions := objGetD f "transactions" (.arr [])
      let agents := objGetD f "agents" (.obj [])
      let agentInfo : Except Unit (JValue × JValue) :=
        if pyTruthy agents then
          match agents with
          | .obj ((_, ad) :: _) =>
              (match ad with
               | .obj af => .ok (objGetD af "agent_name" (.str ""), objGetD af "version" (.str ""))
               | _ => .error ())
          | _ => .error ()
        else .ok (.str "", .str "")
      let (an, av) ← agentInfo
      match transactions with
      | .arr txns => txns.mapM (blockagent_txn session_id an av)
      | _ => .error ()
  | _ => .error ()

/-! ### `extract_flow_diagram` (debug_tool.py lines 527-613) -/

/-- A turn listed under a blockagent node. -/
structure FlowTurn where
  id : JValue
  name : JValue

/-- A node of the extracted flow graph: blockagent nodes carry their
turns, smartflow nodes their plugin type. -/
inductive FlowGraphNode where
  | blockagent (id : JValue) (label : JValue) (turns : List FlowTurn)
  | smartflow (id : String) (label : String) (plugin_type : String)

/-- A directed edge of the flow graph; smartflow edges carry no
label. -/
structure FlowEdge where
  efrom : JValue
  eto : JValue
  elabel : Option JValue
  etype : String

/-- The dictionary returned by `extract_flow_diagram`. -/
structure FlowDiagram where
  nodes : List FlowGraphNode
  edges : List FlowEdge
  smartflow_nodes : List FlowGraphNode
  blockagent_nodes : List FlowGraphNode

/-- Case-sensitive literal match returning the remaining input. -/
def litPrefix : List Char → List Char → Option (List Char)
  | [], l => some l
  | _ :: _, [] => none
  | p :: ps, c :: rest => if c = p then litPrefix ps rest else none

/-- Greedy backtracking of a `[^>]*` gap: offsets are tried longest
first, the continuation decides. -/
def tryGreedyAux (cont : List Char → Option α) (l : List Char) : Nat → Option α
  | 0 => cont l
  | k + 1 =>
      match cont (l.drop (k + 1)) with
      | some r => some r
      | none => tryGreedyAux cont l k

/-- Attempt of the chain pattern
`<chain[^>]*left="([^"]*)"[^>]*right="([^"]*)"` at one position;
returns the two groups and the input following the match. -/
def chainAt (l : List Char) : Option ((String × String) × List Char) := do
  let l1 ← litPrefix "<chain".data l
  let run1 := l1.takeWhile (· ≠ '>')
  tryGreedyAux (fun l2 => do
      let l3 ← litPrefix "left=\"".data l2
      let g1 := l3.takeWhile (· ≠ '"')
      match l3.drop g1.length with
      | '"' :: l5 =>
          let run2 := l5.takeWhile (· ≠ '>')
          tryGreedyAux (fun l6 => do
              let l7 ← litPrefix "right=\"".data l6
              let g2 := l7.takeWhile (· ≠ '"')
              match l7.drop g2.length with
              | '"' :: l9 => some ((⟨g1⟩, ⟨g2⟩), l9)
              | _ => none) l5 run2.length
      | _ => none) l1 run1.length

/-- Attempt of the plugin pattern
`<plugin\s+name="([^"]+)"[^>]*label="([^"]*)"[^>]*type="([^"]*)"` at one
position. -/
def pluginAt (l : List Char) : Option ((String × String × String) × List Char) := do
  let l1 ← litPrefix "<plugin".data l
  let ws := l1.takeWhile isPySpace
  if ws.isEmpty then none
  else do
    let l2 ← litPrefix "name=\"".data (l1.drop ws.length)
    let g1 := l2.takeWhile (· ≠ '"')
    if g1.isEmpty then none
    else
      match l2.drop g1.length with
      | '"' :: l3 =>
          let run1 := l3.takeWhile (· ≠ '>')
          tryGreedyAux (fun l4 => do
              let l5 ← litPrefix "label=\"".data l4
              let g2 := l5.takeWhile (· ≠ '"')
              match l5.drop g2.length with
              | '"' :: l6 =>
                  let run2 := l6.takeWhile (· ≠ '>')
                  tryGreedyAux (fun l7 => do
                      let l8 ← litPrefix "type=\"".data l7
                      let g3 := l8.takeWhile (· ≠ '"')
                      match l8.drop g3.length with
                      | '"' :: l9 => some ((⟨g1⟩, ⟨g2⟩, ⟨g3⟩), l9)
                      | _ => none) l6 run2.length
              | _ => none) l3 run1.length
      | _ => none

/-- Non-overlapping leftmost scan of `re.findall`: continue after each
match's end. -/
def findallAux (f : List Char → Option (α × List Char)) : Nat → List Char → List α
  | 0, _ => []
  | _, [] => []
  | fuel + 1, c :: rest =>
      match f (c :: rest) with
      | some (g, l') => g :: findallAux f fuel l'
      | none => findallAux f fuel rest

/-- `re.findall` of the chain pattern over a string. -/
def chainFindall (s : String) : List (String × String) :=
  findallAux chainAt (s.length + 1) s.data

/-- `re.findall` of the plugin pattern over a string. -/
def pluginFindall (s : String) : List (String × String × String) :=
  findallAux pluginAt (s.length + 1) s.data

/-- Smartflow plugin nodes (lines 588-600): label falls back to the name
when empty. -/
def smartflow_plugin_nodes (xml : String) : List FlowGraphNode :=
  (pluginFindall xml).map (fun g =>
    .smartflow g.1 (if g.2.1 ≠ "" then g.2.1 else g.1) g.2.2)

/-- Smartflow chain edges (lines 602-609): both attributes must be
non-empty and a `right` equal to the sentinel `END_CALL` contributes
nothing. -/
def smartflow_edges (chains : List (String × String)) : List FlowEdge :=
  chains.filterMap (fun g =>
    if g.1 ≠ "" ∧ g.2 ≠ "" ∧ g.2 ≠ "END_CALL" then
      some { efrom := .str g.1, eto := .str g.2, elabel := none, etype := "smartflow" }
    else none)

/-- One edge declaration of a turn (lines 560-571): a dict-shaped truthy
`connect_to` with a truthy target `turn_id` yields one edge. -/
def processEdgeDecl (turn_id : JValue) (edge : JValue) : Except Unit (List FlowEdge) :=
  match edge with
  | .obj ef =>
      let ct := objGetD ef "connect_to" .null
      (match ct with
       | .obj cf =>
           if pyTruthy ct then
             let target := objGetD cf "turn_id" (.str "")
             if pyTruthy target then
               .ok [{ efrom := turn_id, eto := target,
                      elabel := some (objGetD ef "name" (.str "")), etype := "blockagent" }]
             else .ok []
           else .ok []
       | _ => .ok [])
  | _ => .error ()

/-- One turn of a block (lines 551-571): its descriptor plus the edges
it declares. -/
def processTurn (turn : JValue) : Except Unit (FlowTurn × List FlowEdge) := do
  match turn with
  | .obj tf =>
      let turn_id := objGetD tf "turn_id" (.str "")
      let turn_name := objGetD tf "name" (.str "")
      let edges ←
        match objGet tf "edges" with
        | some (.arr es) => do
            let ess ← es.mapM (processEdgeDecl turn_id)
            pure ess.flatten
        | some _ => .error ()
        | none => pure []
      return ({ id := turn_id, name := turn_name }, edges)
  | _ => .error ()

/-- One infrastructure block (lines 538-574): a node with its turns and
the edges collected from them. -/
def processBlock (idx : Nat) (block : JValue) : Except Unit (FlowGraphNode × List FlowEdge) := do
  match block with
  | .obj bf =>
      let block_id := objGetD bf "block_id" (.str ("block_" ++ pyStrInt idx))
      let block_name := objGetD bf "name" (.str "Unknown Block")
      let turnsAndEdges ←
        match objGet bf "turns" with
        | some (.arr ts) => ts.mapM processTurn
        | some _ => .error ()
        | none => pure []
      return (.blockagent block_id block_name (turnsAndEdges.map (·.1)),
              (turnsAndEdges.map (·.2)).flatten)
  | _ => .error ()

/-- `extract_flow_diagram`: the blockagent part runs only when the
infrastructure is a (truthy) list, the smartflow part only when a
`raw_xml` snippet was stored. -/
def extract_flow_diagram (blockagent_structure : JValue) (rawXml : Option String) :
    Except Unit FlowDiagram := do
  let ba ←
    match blockagent_structure with
    | .arr blocks =>
        if blocks.isEmpty then pure ([], [])
        else do
          let results ← blocks.enum.mapM (fun p => processBlock p.1 p.2)
          pure (results.map (·.1), (results.map (·.2)).flatten)
    | _ => pure (([] : List FlowGraphNode), ([] : List FlowEdge))
  let sfNodes := match rawXml with
    | some x => smartflow_plugin_nodes x
    | none => []
  let sfEdges := match rawXml with
    | some x => smartflow_edges (chainFindall x)
    | none => []
  return { nodes := ba.1 ++ sfNodes
           edges := ba.2 ++ sfEdges
           smartflow_nodes := sfNodes
           blockagent_nodes := ba.1 }

/-! ### Specification-side definitions

`searchSpec` renders the specification's description of the signal
detector ("at each mapping level, first scan all same-level keys for a
case-insensitive substring match; only if none match, recurse into each
value; skip any child whose key equals the excluded key entirely; at
max depth return not-found; for sequences recurse into each element")
as a definition of its own, to be compared with the translation
`rsearch` of the code. -/

/-- Level-first bounded search as the specification words it. -/
def searchSpec (key : String) (skip : Bool) : Nat → JValue → Option JValue
  | 0, _ => none
  | fuel + 1, .obj fields =>
      let kept := fields.filter (fun kv => keptKey skip kv.1)
      match kept.find? (fun kv => substrB key (lowerStr kv.1)) with
      | some kv => pyOpt kv.2
      | none => kept.findSome? (fun kv => searchSpec key skip fuel kv.2)
  | fuel + 1, .arr items => items.findSome? (fun it => searchSpec key skip fuel it)
  | _ + 1, _ => none

mutual

/-- Every key whose lowering contains `key` as a substring lies inside a
`SessionData` subtree (children of a `SessionData` key are not
inspected, mirroring the detector's exclusion). -/
def noKeyOutsideSD (key : String) : JValue → Bool
  | .obj fields => noKeyOutsideSDFields key fields
  | .arr items => noKeyOutsideSDItems key items
  | _ => true

/-- Field-list form of `noKeyOutsideSD`. -/
def noKeyOutsideSDFields (key : String) : List (String × JValue) → Bool
  | [] => true
  | (k, v) :: rest =>
      (if k = "SessionData" then true
       else !(substrB key (lowerStr k)) && noKeyOutsideSD key v)
        && noKeyOutsideSDFields key rest

/-- Item-list form of `noKeyOutsideSD`. -/
def noKeyOutsideSDItems (key : String) : List JValue → Bool
  | [] => true
  | v :: rest => noKeyOutsideSD key v && noKeyOutsideSDItems key rest

end

/-- Characters of the detector's search keys (`wait_on`, `statuscode`,
`status_code`): lowercase letters and underscore, which escaping and
lowering leave untouched. -/
def safeKeyChar (c : Char) : Bool :=
  c = '_' || ('a' ≤ c && c ≤ 'z')

/-! ### Concrete inputs used by the claim theorems -/

/-- Fallback entry for total projections out of `Except`. -/
def dummyEntry : LogEntry :=
  mkLogEntry .null "" .null .null .null

/-- Payload whose only `wait_on` key sits inside a (nested)
`SessionData` subtree, next to a sibling string value that textually
contains a bare `wait_on=` assignment. -/
def c1content : JValue :=
  .obj [("a", .obj [("SessionData",
    .obj [("wait_on", .str "x"), ("note", .str "wait_on=evt")])])]

/-- Conversational-agent transaction carrying `c1content`. -/
def c1entry : LogEntry :=
  match blockagent_txn (.str "s") (.str "") (.str "") (.obj [("content", c1content)]) with
  | .ok e => e
  | .error _ => dummyEntry

/-- Payload whose `wait_on` and `statuscode` keys sit only inside a
top-level `SessionData`. -/
def c1waitSD : JValue :=
  .obj [("SessionData", .obj [("wait_on", .str "x"), ("statuscode", .num 404)])]

/-- Payload carrying truthy `wait_on` and `statuscode` keys at top
level. -/
def c1waitKey : JValue :=
  .obj [("wait_on", .str "evt1"), ("statuscode", .num 503)]

/-- Payload whose only status key uses the `status_code` spelling (and
carries no `wait_on` or `statuscode` key at all). -/
def c1metaKey : JValue := .obj [("status_code", .num 502)]

/-- Metadata carrying a truthy `wait_on` key. -/
def c1metaMd : JValue := .obj [("wait_on", .str "mv")]

/-- Transaction whose content is the text `wait_on: ''`. -/
def c3entry : LogEntry :=
  match blockagent_txn (.str "s") (.str "") (.str "")
      (.obj [("content", .str "wait_on: ''")]) with
  | .ok e => e
  | .error _ => dummyEntry

/-- The doubly nested flow-engine record of the nested-payload
round-trip: its `message` is the JSON text
`{"message": "{\"PluginId\":\"EXTCALL_3\",\"LogType\":\"IpdOut\",\"IpdMsg\":{\"body\":{\"user_message\":\"hi\"}}}"}`. -/
def c4record : JValue :=
  .obj [("message", .str "\x7b\"message\": \"\x7b\\\"PluginId\\\":\\\"EXTCALL_3\\\",\\\"LogType\\\":\\\"IpdOut\\\",\\\"IpdMsg\\\":\x7b\\\"body\\\":\x7b\\\"user_message\\\":\\\"hi\\\"\x7d\x7d\x7d\"\x7d")]

/-- Entries with the three timestamps of the ordering scenario. -/
def c5entryOne : LogEntry :=
  mkLogEntry (.str "2025-01-01T00:00:01.000Z") "smartflow" (.str "s") (.str "t") (.str "a")

/-- Entry at half a second past midnight. -/
def c5entryHalf : LogEntry :=
  mkLogEntry (.str "2025-01-01T00:00:00.500000") "smartflow" (.str "s") (.str "t") (.str "b")

/-- Entry with an empty timestamp. -/
def c5entryEmpty : LogEntry :=
  mkLogEntry (.str "") "smartflow" (.str "s") (.str "t") (.str "c")

/-- Entry whose timestamp is parseable and denotes `datetime.min`. -/
def c5entryMin : LogEntry :=
  mkLogEntry (.str "0001-01-01T00:00:00.0") "smartflow" (.str "s") (.str "t") (.str "m")

/-- Entry tagged with the `'unknown'` session sentinel. -/
def c6unknownEntry : LogEntry :=
  mkLogEntry (.str "") "smartflow" (.str "unknown") (.str "system_log") (.str "hello")

/-- Entry of a known session. -/
def c6knownEntry : LogEntry :=
  mkLogEntry (.str "") "smartflow" (.str "sess-1") (.str "system_log") (.str "world")

/-- Record with a well-formed `message` and `timestamp` whose `PluginId`
field holds the integer `5`. -/
def c8record : JValue :=
  .obj [("message", .str "x"), ("timestamp", .str "t"), ("PluginId", .num 5)]

/-- Flow-engine record recognized as a GPT user turn whose inner payload
also carries a structured session id. -/
def c9record : JValue :=
  .obj [("message", .str "\x7b\"message\": \"\x7b\\\"PluginId\\\":\\\"EXTCALL_3\\\",\\\"LogType\\\":\\\"IpdOut\\\",\\\"IpdMsg\\\":\x7b\\\"body\\\":\x7b\\\"user_message\\\":\\\"hi\\\"\x7d\x7d,\\\"sid\\\":\\\"1234567890-1-SR-1-2A-B\\\"\x7d\"\x7d")]

/-- Session index loaded from `c9record` through the full pipeline. -/
def c9state : Sessions :=
  match load_smartflow_logs (.arr [c9record]) with
  | .ok es => group_by_sessions (build_unified_timeline es [])
  | .error _ => []

/-- The session id carried by `c9record`. -/
def c9sid : JValue := .str "1234567890-1-SR-1-2A-B"

/-- The infra block of the flow-graph scenario. -/
def c10infra : JValue :=
  .arr [.obj [("block_id", .str "b1"),
              ("turns", .arr [.obj [("turn_id", .str "t1"),
                ("edges", .arr [.obj [("connect_to", .obj [("turn_id", .str "t2")]),
                                      ("name", .str "ok")]])]])]]

/-- XML fragment whose only chain element targets `END_CALL`. -/
def c10xml : String :=
  "<?xml version=\"1.0\"?><chain left=\"A\" right=\"END_CALL\"></chain>"

/-- Flow graph extracted from the scenario's inputs. -/
def c10flow : FlowDiagram :=
  match extract_flow_diagram c10infra (some c10xml) with
  | .ok f => f
  | .error _ => ⟨[], [], [], []⟩

/-! ## Lemmas -/

mutual

theorem beqJ_refl : ∀ v : JValue, beqJ v v = true
  | .str s => by simp [beqJ]
  | .num n => by simp [beqJ]
  | .bool b => by simp [beqJ]
  | .null => by simp [beqJ]
  | .obj fields => by simpa [beqJ] using beqFields_refl fields
  | .arr items => by simpa [beqJ] using beqItems_refl items

theorem beqFields_refl : ∀ l : List (String × JValue), beqFields l l = true
  | [] => by simp [beqFields]
  | (k, v) :: rest => by
      simp [beqFields]
      exact ⟨beqJ_refl v, beqFields_refl rest⟩

theorem beqItems_refl : ∀ l : List JValue, beqItems l l = true
  | [] => by simp [beqItems]
  | v :: rest => by
      simp [beqItems]
      exact ⟨beqJ_refl v, beqItems_refl rest⟩

end

theorem beqJ_str_iff (v : JValue) (u : String) : beqJ v (.str u) = true ↔ v = .str u := by
  cases v <;> simp [beqJ]

theorem beqJ_str_ne {v : JValue} {u : String} (h : beqJ v (.str u) = false) : v ≠ .str u := by
  intro he
  rw [he] at h
  simp [beqJ] at h

theorem foldl_ite_append {α β : Type} (p : α → Bool) (f : α → β) :
    ∀ (l : List α) (acc : List β),
      l.foldl (fun acc e => if p e then acc ++ [f e] else acc) acc
        = acc ++ (l.filter p).map f := by
  intro l
  induction l with
  | nil => intro acc; simp
  | cons e rest ih =>
      intro acc
      by_cases h : p e <;> simp [List.filter_cons, h, ih, List.append_assoc]

theorem strOptTruthy_iff (o : Option String) :
    strOptTruthy o = true ↔ ∃ v, o = some v ∧ v ≠ "" := by
  cases o <;> simp [strOptTruthy]

theorem detect_wait_flag (c m : JValue) :
    (detect_important_fields c m).has_wait_on
      = strOptTruthy (detect_important_fields c m).wait_on_value := by
  unfold detect_important_fields
  by_cases h : substrB "wait_on" (lowerStr (combinedStr c m)) <;> simp [h, strOptTruthy]

theorem detect_error_isSome (c m : JValue) :
    (detect_important_fields c m).has_error
      = (detect_important_fields c m).error_code.isSome := rfl

theorem statusStructural_ge {c : JValue} {k : Int} (h : statusStructural c = some k) :
    400 ≤ k := by
  unfold statusStructural at h
  dsimp only at h
  repeat' split at h
  all_goals first
    | (injection h with h'; omega)
    | exact absurd h (by simp)

theorem statusFallback_ge {s : String} {k : Int} (h : statusFallback s = some k) :
    400 ≤ k := by
  unfold statusFallback at h
  dsimp only at h
  repeat' split at h
  all_goals first
    | (injection h with h'; omega)
    | exact absurd h (by simp)

theorem detect_error_eq (c m : JValue) :
    (detect_important_fields c m).error_code
      = (match statusStructural c with
         | some v => some v
         | none => statusFallback (combinedStr c m)) := rfl

theorem detect_error_ge {c m : JValue} {k : Int}
    (h : (detect_important_fields c m).error_code = some k) : 400 ≤ k := by
  rw [detect_error_eq] at h
  cases hs : statusStructural c with
  | some v =>
      rw [hs] at h
      exact Option.some.inj h ▸ statusStructural_ge hs
  | none =>
      rw [hs] at h
      exact statusFallback_ge h

theorem detect_inv (c m : JValue) :
    ((detect_important_fields c m).has_wait_on = true ↔
      ∃ v, (detect_important_fields c m).wait_on_value = some v ∧ v ≠ "")
    ∧ ((detect_important_fields c m).has_error = true ↔
      ∃ k, (detect_important_fields c m).error_code = some k ∧ 400 ≤ k) := by
  constructor
  · rw [detect_wait_flag]
    exact strOptTruthy_iff _
  · rw [detect_error_isSome]
    constructor
    · intro h
      obtain ⟨k, hk⟩ := Option.isSome_iff_exists.mp h
      exact ⟨k, hk, detect_error_ge hk⟩
    · rintro ⟨k, hk, -⟩
      exact Option.isSome_iff_exists.mpr ⟨k, hk⟩

/-! ## Claim theorems -/

/-- C2: for every Log Entry produced by either adapter (both construct
entries through `mkLogEntry`, the translation of `__post_init__`), from
the moment of construction `has_wait_on` holds exactly when
`wait_on_value` is a non-`None`, non-empty string, and `has_error` holds
exactly when `error_code` is a non-`None` integer at least 400. -/
theorem c2_construction_invariants :
    ∀ (ts : JValue) (src : String) (sid lt ct bid tid txid rl mt md : JValue),
      ((mkLogEntry ts src sid lt ct bid tid txid rl mt md).has_wait_on = true ↔
        ∃ v, (mkLogEntry ts src sid lt ct bid tid txid rl mt md).wait_on_value = some v ∧ v ≠ "")
      ∧ ((mkLogEntry ts src sid lt ct bid tid txid rl mt md).has_error = true ↔
        ∃ k, (mkLogEntry ts src sid lt ct bid tid txid rl mt md).error_code = some k ∧ 400 ≤ k) := by
  intro ts src sid lt ct bid tid txid rl mt md
  exact detect_inv ct (match md with | .null => JValue.obj [] | m => m)

/-- C3 counterexample: the entry built by the conversational-agent
adapter from a transaction whose content is the text `wait_on: ''` has
`has_wait_on = False` while `wait_on_value` is the empty string, not
`None` (the third fallback pattern matches `''` and quote-stripping
empties it). -/
theorem c3_counterexample :
    c3entry.has_wait_on = false ∧ c3entry.wait_on_value = some "" :=
  ⟨rfl, rfl⟩

theorem detect_unset (c m : JValue) :
    ((detect_important_fields c m).has_wait_on = false →
      (detect_important_fields c m).wait_on_value = none
      ∨ (detect_important_fields c m).wait_on_value = some "")
    ∧ ((detect_important_fields c m).has_error = false →
      (detect_important_fields c m).error_code = none) := by
  constructor
  · intro h
    rw [detect_wait_flag] at h
    cases ho : (detect_important_fields c m).wait_on_value with
    | none => exact Or.inl rfl
    | some s =>
        rw [ho] at h
        simp [strOptTruthy] at h
        exact Or.inr (by rw [h])
  · intro h
    rw [detect_error_isSome] at h
    exact Option.not_isSome_iff_eq_none.mp (by simp [h])

/-- C3 amended: for every Log Entry, if `has_wait_on` is `False` then
`wait_on_value` is `None` or the empty string (the quote-stripped third
regex group can record an empty string without raising the flag);
if `has_error` is `False` then `error_code` is `None`. -/
theorem c3_unset_flags_amended :
    ∀ (ts : JValue) (src : String) (sid lt ct bid tid txid rl mt md : JValue),
      ((mkLogEntry ts src sid lt ct bid tid txid rl mt md).has_wait_on = false →
        (mkLogEntry ts src sid lt ct bid tid txid rl mt md).wait_on_value = none
        ∨ (mkLogEntry ts src sid lt ct bid tid txid rl mt md).wait_on_value = some "")
      ∧ ((mkLogEntry ts src sid lt ct bid tid txid rl mt md).has_error = false →
        (mkLogEntry ts src sid lt ct bid tid txid rl mt md).error_code = none) := by
  intro ts src sid lt ct bid tid txid rl mt md
  exact detect_unset ct (match md with | .null => JValue.obj [] | m => m)

/-- C3 amended witness: at the concrete `wait_on: ''` content the flag
is down, the recorded value is the empty string and no error code is
set. -/
theorem c3_unset_flags_amended_witness :
    ((mkLogEntry (.str "") "x" (.str "s") (.str "t") (.str "wait_on: ''")).wait_on_value = none
      ∨ (mkLogEntry (.str "") "x" (.str "s") (.str "t") (.str "wait_on: ''")).wait_on_value = some "")
    ∧ (mkLogEntry (.str "") "x" (.str "s") (.str "t") (.str "wait_on: ''")).error_code = none := by
  have h := c3_unset_flags_amended (.str "") "x" (.str "s") (.str "t") (.str "wait_on: ''")
    .null .null .null .null .null .null
  exact ⟨h.1 rfl, h.2 rfl⟩

/-- C4: the flow-engine adapter normalizes the doubly nested record of
`c4record` to exactly one Log Entry with role `user` and content `hi`
(the recognized GPT exchange overrides the plain content/role). -/
theorem c4_nested_round_trip :
    (load_smartflow_logs (.arr [c4record])).map (fun es => es.map (fun e => (e.role, e.content)))
      = .ok [(.str "user", .str "hi")] := rfl

/-- C8: a well-formed batch (a JSON array of mappings with `message` and
`timestamp` fields) on which the flow-engine adapter nevertheless
raises: the record's `PluginId` holds an integer, and
`plugin_id.startswith('EXTCALL_')` raises an uncaught `AttributeError`
instead of degrading, so no Log Entry is produced for the batch. -/
theorem c8_adapter_raises :
    smartflow_entry c8record = .error () ∧ load_smartflow_logs (.arr [c8record]) = .error () :=
  ⟨rfl, rfl⟩

set_option maxRecDepth 8000 in
/-- C9 counterexample: a full load of one flow-engine record recognized
as a GPT user turn with a known session id: the session's timeline holds
a `smartflow` entry with role `user`, yet the conversation summary is
empty, because the summary keeps only `blockagent` entries. -/
theorem c9_counterexample :
    get_all_sessions c9state = [c9sid]
    ∧ (get_session_timeline c9state c9sid).map (fun e => (e.source, e.role))
        = [("smartflow", .str "user")]
    ∧ (get_conversation_summary c9state c9sid).conversation = [] :=
  ⟨rfl, rfl, rfl⟩

/-- C9 amended: the conversation summary contains one item
(role/content/timestamp/ids) for every entry of the session whose
source is the conversational-agent log and whose role is `user` or
`assistant`, in timeline order — flow-engine entries are excluded even
when they carry a conversational role — plus entry counts split by
source. -/
theorem c9_summary_amended :
    ∀ (m : Sessions) (sid : JValue),
      (get_conversation_summary m sid).conversation
        = ((get_session_timeline m sid).filter isConversational).map convItem
      ∧ (get_conversation_summary m sid).total_entries = (get_session_timeline m sid).length
      ∧ (get_conversation_summary m sid).smartflow_entries
          = ((get_session_timeline m sid).filter (fun e => e.source == "smartflow")).length
      ∧ (get_conversation_summary m sid).blockagent_entries
          = ((get_session_timeline m sid).filter (fun e => e.source == "blockagent")).length := by
  intro m sid
  refine ⟨?_, rfl, rfl, rfl⟩
  simpa using foldl_ite_append isConversational convItem (get_session_timeline m sid) []

/-- C10: the flow graph extracted from the infra block
`{"block_id":"b1","turns":[{"turn_id":"t1","edges":[{"connect_to":{"turn_id":"t2"},"name":"ok"}]}]}`
and an XML fragment whose only chain targets `END_CALL` contains exactly
the directed edge `t1 -> t2` labeled `ok` of conversational-agent type;
and in general every extracted chain pair whose `right` attribute is the
literal `END_CALL` contributes no edge. -/
theorem c10_flow_graph :
    c10flow.edges = [{ efrom := .str "t1", eto := .str "t2",
                       elabel := some (.str "ok"), etype := "blockagent" }]
    ∧ ∀ (chains : List (String × String)) (e : FlowEdge),
        e ∈ smartflow_edges chains → e.eto ≠ .str "END_CALL" := by
  constructor
  · rfl
  · intro chains e he
    unfold smartflow_edges at he
    rw [List.mem_filterMap] at he
    obtain ⟨g, -, hg⟩ := he
    split at hg
    · rename_i hcond
      cases hg
      simp only [ne_eq, JValue.str.injEq]
      exact fun hend => hcond.2.2 hend
    · exact absurd hg (by simp)

theorem strptimeDT_ge {sep : Char} {z : Bool} {s : String} {k : Nat}
    (h : strptimeDT sep z s = some k) : dtMin ≤ k := by
  unfold strptimeDT at h
  repeat' split at h
  all_goals try contradiction
  injection h with h'
  rename_i hvalid
  unfold dtValid at hvalid
  simp only [Bool.and_eq_true, decide_eq_true_eq] at hvalid
  subst h'
  unfold dtMin dtKey
  obtain ⟨⟨⟨⟨⟨h1, -⟩, h3⟩, -⟩, h5⟩, -⟩ := hvalid
  omega

theorem tryFormats_ge {s : String} {k : Nat} (h : tryFormats s = some k) : dtMin ≤ k := by
  unfold tryFormats at h
  split at h
  next heq =>
    injection h with h'
    exact h' ▸ strptimeDT_ge heq
  next =>
    split at h
    next heq2 =>
      injection h with h'
      exact h' ▸ strptimeDT_ge heq2
    next => exact strptimeDT_ge h

/-- C5 counterexample: an entry whose timestamp `0001-01-01T00:00:00.0`
is parseable (by the third format) receives the same ordinal as the
empty timestamp, so the stable sort keeps it in front of an
empty-timestamp entry arriving later — the empty entry is not ordered
before all parseable ones. -/
theorem c5_counterexample :
    (tryFormats "0001-01-01T00:00:00.0").isSome = true
    ∧ c5entryMin.timestamp = .str "0001-01-01T00:00:00.0"
    ∧ c5entryEmpty.timestamp = .str ""
    ∧ build_unified_timeline [c5entryMin, c5entryEmpty] [] = [c5entryMin, c5entryEmpty] :=
  ⟨rfl, rfl, rfl, rfl⟩

/-- C5 amended: correlation sorts by normalized timestamp where empty or
unparseable timestamps receive the minimum ordinal `datetime.min`, hence
sort before every entry with a strictly later ordinal (a parseable
timestamp denoting `datetime.min` itself ties and keeps input order); in
particular the three entries with timestamps `2025-01-01T00:00:01.000Z`,
`2025-01-01T00:00:00.500000` and `""` correlate as: empty first, then
the half-second entry, then the one-second entry. -/
theorem c5_ordering_amended :
    build_unified_timeline [c5entryOne, c5entryHalf, c5entryEmpty] []
      = [c5entryEmpty, c5entryHalf, c5entryOne]
    ∧ (∀ s : String, tryFormats s = none → parse_timestamp (.str s) = dtMin)
    ∧ ∀ v : JValue, dtMin ≤ parse_timestamp v := by
  refine ⟨rfl, ?_, ?_⟩
  · intro s h
    unfold parse_timestamp
    split
    · rfl
    · simp [h]
  · intro v
    unfold parse_timestamp
    split
    · exact Nat.le_refl _
    · match v with
      | .str s =>
          cases h : tryFormats s with
          | none => simp [h]
          | some k => simpa [h] using tryFormats_ge h
      | .num _ | .bool _ | .null | .obj _ | .arr _ => exact Nat.le_refl _

/-- C5 amended witness: the unparseable timestamp `garbage` receives the
minimum ordinal. -/
theorem c5_ordering_amended_witness :
    parse_timestamp (.str "garbage") = dtMin :=
  c5_ordering_amended.2.1 "garbage" rfl

theorem addEntry_key_prop {P : JValue → Prop} {e : LogEntry} (hP : P e.session_id) :
    ∀ m : Sessions, (∀ p ∈ m, P p.1) → ∀ p ∈ addEntryToSessions e m, P p.1 := by
  intro m
  induction m with
  | nil =>
      intro _ p hp
      simp [addEntryToSessions] at hp
      subst hp
      exact hP
  | cons q rest ih =>
      obtain ⟨k0, l0⟩ := q
      intro hm p hp
      unfold addEntryToSessions at hp
      by_cases hb : beqJ k0 e.session_id
      · simp [hb] at hp
        rcases hp with hp | hp
        · subst hp
          exact hm (k0, l0) (by simp)
        · exact hm p (by simp [hp])
      · simp [hb] at hp
        rcases hp with hp | hp
        · subst hp
          exact hm (k0, l0) (by simp)
        · exact ih (fun q hq => hm q (by simp [hq])) p hp

theorem addEntry_entry_prop {P : LogEntry → Prop} {e : LogEntry} (hP : P e) :
    ∀ m : Sessions, (∀ p ∈ m, ∀ x ∈ p.2, P x) →
      ∀ p ∈ addEntryToSessions e m, ∀ x ∈ p.2, P x := by
  intro m
  induction m with
  | nil =>
      intro _ p hp x hx
      simp [addEntryToSessions] at hp
      subst hp
      simp at hx
      rw [hx]
      exact hP
  | cons q rest ih =>
      obtain ⟨k0, l0⟩ := q
      intro hm p hp x hx
      unfold addEntryToSessions at hp
      by_cases hb : beqJ k0 e.session_id
      · simp [hb] at hp
        rcases hp with hp | hp
        · subst hp
          simp at hx
          rcases hx with hx | hx
          · exact hm (k0, l0) (by simp) x hx
          · rw [hx]; exact hP
        · exact hm p (by simp [hp]) x hx
      · simp [hb] at hp
        rcases hp with hp | hp
        · subst hp
          exact hm (k0, l0) (by simp) x hx
        · exact ih (fun q hq => hm q (by simp [hq])) p hp x hx

theorem groupBy_inv (Pk : JValue → Prop) (Pe : LogEntry → Prop)
    (hstep : ∀ e : LogEntry, beqJ e.session_id (.str "unknown") = false →
      Pk e.session_id ∧ Pe e) :
    ∀ (l : List LogEntry) (acc : Sessions),
      (∀ p ∈ acc, Pk p.1 ∧ ∀ x ∈ p.2, Pe x) →
      ∀ p ∈ List.foldl
          (fun m e => if beqJ e.session_id (.str "unknown") then m else addEntryToSessions e m)
          acc l,
        Pk p.1 ∧ ∀ x ∈ p.2, Pe x := by
  intro l
  induction l with
  | nil => intro acc hacc p hp; exact hacc p hp
  | cons e rest ih =>
      intro acc hacc p hp
      simp only [List.foldl_cons] at hp
      by_cases hb : beqJ e.session_id (.str "unknown")
      · rw [if_pos hb] at hp
        exact ih acc hacc p hp
      · rw [if_neg hb] at hp
        refine ih _ ?_ p hp
        intro q hq
        have hse := hstep e (Bool.eq_false_iff.mpr hb)
        constructor
        · exact addEntry_key_prop hse.1 acc (fun r hr => (hacc r hr).1) q hq
        · exact addEntry_entry_prop hse.2 acc (fun r hr => (hacc r hr).2) q hq

theorem sessionsGet_none {sid : JValue} :
    ∀ m : Sessions, (∀ p ∈ m, beqJ p.1 sid = false) → sessionsGet m sid = none := by
  intro m
  induction m with
  | nil => intro _; rfl
  | cons q rest ih =>
      intro hm
      obtain ⟨k0, l0⟩ := q
      unfold sessionsGet
      rw [hm (k0, l0) (by simp)]
      exact ih (fun r hr => hm r (by simp [hr]))

theorem gst_cons (k0 : JValue) (l0 : List LogEntry) (rest : Sessions) (sid : JValue) :
    get_session_timeline ((k0, l0) :: rest) sid
      = if beqJ k0 sid then l0 else get_session_timeline rest sid := by
  unfold get_session_timeline
  have hg : sessionsGet ((k0, l0) :: rest) sid
      = if beqJ k0 sid then some l0 else sessionsGet rest sid := rfl
  rw [hg]
  by_cases h : beqJ k0 sid
  · rw [if_pos h, if_pos h]
    rfl
  · rw [if_neg h, if_neg h]

theorem mem_addEntry_self (e : LogEntry) :
    ∀ m : Sessions, e ∈ get_session_timeline (addEntryToSessions e m) e.session_id := by
  intro m
  induction m with
  | nil =>
      show e ∈ get_session_timeline [(e.session_id, [e])] e.session_id
      rw [gst_cons, if_pos (beqJ_refl e.session_id)]
      simp
  | cons q rest ih =>
      obtain ⟨k0, l0⟩ := q
      unfold addEntryToSessions
      by_cases hb : beqJ k0 e.session_id
      · rw [if_pos hb, gst_cons, if_pos hb]
        simp
      · rw [if_neg hb, gst_cons, if_neg hb]
        exact ih

theorem mem_addEntry_preserve (e x : LogEntry) (sid : JValue) :
    ∀ m : Sessions, x ∈ get_session_timeline m sid →
      x ∈ get_session_timeline (addEntryToSessions e m) sid := by
  intro m
  induction m with
  | nil => intro hx; simp [get_session_timeline, sessionsGet] at hx
  | cons q rest ih =>
      obtain ⟨k0, l0⟩ := q
      intro hx
      rw [gst_cons] at hx
      unfold addEntryToSessions
      by_cases hb : beqJ k0 e.session_id
      · rw [if_pos hb, gst_cons]
        by_cases hs : beqJ k0 sid
        · rw [if_pos hs]
          rw [if_pos hs] at hx
          exact List.mem_append_left _ hx
        · rw [if_neg hs]
          rw [if_neg hs] at hx
          exact hx
      · rw [if_neg hb, gst_cons]
        by_cases hs : beqJ k0 sid
        · rw [if_pos hs]
          rw [if_pos hs] at hx
          exact hx
        · rw [if_neg hs]
          rw [if_neg hs] at hx
          exact ih hx

theorem mem_foldl_preserve (x : LogEntry) (sid : JValue) :
    ∀ (l : List LogEntry) (acc : Sessions), x ∈ get_session_timeline acc sid →
      x ∈ get_session_timeline
        (List.foldl
          (fun m e => if beqJ e.session_id (.str "unknown") then m else addEntryToSessions e m)
          acc l) sid := by
  intro l
  induction l with
  | nil => intro acc hx; exact hx
  | cons e rest ih =>
      intro acc hx
      simp only [List.foldl_cons]
      by_cases hb : beqJ e.session_id (.str "unknown")
      · rw [if_pos hb]
        exact ih acc hx
      · rw [if_neg hb]
        exact ih _ (mem_addEntry_preserve e x sid acc hx)

theorem mem_group_by (e : LogEntry) :
    ∀ (l : List LogEntry) (acc : Sessions), e ∈ l →
      beqJ e.session_id (.str "unknown") = false →
      e ∈ get_session_timeline
        (List.foldl
          (fun m e => if beqJ e.session_id (.str "unknown") then m else addEntryToSessions e m)
          acc l) e.session_id := by
  intro l
  induction l with
  | nil => intro acc hmem _; simp at hmem
  | cons t rest ih =>
      intro acc hmem hb
      simp only [List.foldl_cons]
      rcases List.mem_cons.mp hmem with he | he
      · subst he
        rw [if_neg (by simp [hb])]
        exact mem_foldl_preserve e e.session_id rest _ (mem_addEntry_self e acc)
      · exact ih _ he hb

/-- C6 counterexample: a dataset consisting of one entry with the
`'unknown'` session sentinel: the session index is empty and the JSON
export built from it contains no session at all, so the entry appears
nowhere in the export, contrary to the claim that it appears in the
unfiltered full-timeline export. -/
theorem c6_counterexample :
    c6unknownEntry.session_id = .str "unknown"
    ∧ group_by_sessions [c6unknownEntry] = []
    ∧ (export_to_json (group_by_sessions [c6unknownEntry]) .null .null).sessions = [] :=
  ⟨rfl, rfl, rfl⟩

/-- C6 amended: for every loaded dataset, entries whose session id is
the sentinel `'unknown'` never appear in the session-id list or in any
per-session timeline; they remain only in the in-memory unified
timeline, while the JSON export — which contains exactly the indexed
sessions — omits them as well. -/
theorem c6_unknown_partition_amended :
    ∀ (timeline : List LogEntry) (ba sf : JValue),
      (∀ k ∈ get_all_sessions (group_by_sessions timeline), k ≠ .str "unknown")
      ∧ get_session_timeline (group_by_sessions timeline) (.str "unknown") = []
      ∧ (∀ p ∈ group_by_sessions timeline, ∀ x ∈ p.2,
          beqJ x.session_id (.str "unknown") = false)
      ∧ (∀ e ∈ timeline, beqJ e.session_id (.str "unknown") = false →
          e ∈ get_session_timeline (group_by_sessions timeline) e.session_id)
      ∧ (∀ se ∈ (export_to_json (group_by_sessions timeline) ba sf).sessions,
          se.session_id ≠ .str "unknown"
          ∧ se.entries = get_session_timeline (group_by_sessions timeline) se.session_id) := by
  intro timeline ba sf
  have hinv := groupBy_inv (fun k => beqJ k (.str "unknown") = false)
    (fun x => beqJ x.session_id (.str "unknown") = false)
    (fun e he => ⟨he, he⟩) timeline [] (by simp)
  have hkeys : ∀ p ∈ group_by_sessions timeline, beqJ p.1 (.str "unknown") = false :=
    fun p hp => (hinv p hp).1
  refine ⟨?_, ?_, ?_, ?_, ?_⟩
  · intro k hk
    obtain ⟨p, hp, hk1⟩ := List.mem_map.mp hk
    exact hk1 ▸ beqJ_str_ne (hkeys p hp)
  · unfold get_session_timeline
    rw [sessionsGet_none _ hkeys]
    rfl
  · exact fun p hp => (hinv p hp).2
  · exact fun e he hb => mem_group_by e timeline [] he hb
  · intro se hse
    obtain ⟨sid, hsid, hse1⟩ := List.mem_map.mp hse
    obtain ⟨p, hp, hps⟩ := List.mem_map.mp hsid
    subst hse1
    exact ⟨hps ▸ beqJ_str_ne (hkeys p hp), rfl⟩

/-- C6 amended witness: with one known and one unknown entry, `unknown`
is not in the session list, its timeline is empty, and the known entry
is retained in its session's timeline and export. -/
theorem c6_unknown_partition_amended_witness :
    get_session_timeline (group_by_sessions [c6knownEntry, c6unknownEntry]) (.str "unknown") = []
    ∧ c6knownEntry ∈ get_session_timeline (group_by_sessions [c6knownEntry, c6unknownEntry])
        c6knownEntry.session_id := by
  have h := c6_unknown_partition_amended [c6knownEntry, c6unknownEntry] .null .null
  exact ⟨h.2.1, h.2.2.2.1 c6knownEntry (by simp) rfl⟩

theorem findSome?_congr {α β : Type} (f g : α → Option β) :
    ∀ l : List α, (∀ x ∈ l, f x = g x) → l.findSome? f = l.findSome? g := by
  intro l
  induction l with
  | nil => intro _; rfl
  | cons a rest ih =>
      intro h
      rw [List.findSome?_cons, List.findSome?_cons, h a (by simp)]
      cases g a with
      | some b => rfl
      | none => exact ih (fun x hx => h x (by simp [hx]))

theorem find?_filter_comm {α : Type} (p q : α → Bool) :
    ∀ l : List α, (l.filter p).find? q = l.find? (fun a => p a && q a) := by
  intro l
  induction l with
  | nil => rfl
  | cons a rest ih =>
      rw [List.filter_cons]
      by_cases hp : p a
      · rw [if_pos hp, List.find?_cons, List.find?_cons]
        by_cases hq : q a
        · simp [hp, hq]
        · simp only [hq, Bool.if_false_right, Bool.and_false]
          simp [hp, hq, ih]
      · rw [if_neg hp, List.find?_cons]
        simp only [Bool.and_eq_true] at *
        simp [hp, ih]

/-- C7: the signal-detector search `recursive_search` coincides with the
level-first search described by the specification (`searchSpec`): at
each mapping level the first case-insensitive key-substring match is
returned before recursing; recursion happens only when no key at the
level matches; an excluded (`SessionData`) child is neither scanned nor
recursed into; sequences recurse per element; and any branch whose
remaining depth budget `max_depth - current_depth` is exhausted (in
particular whenever `current_depth ≥ max_depth`) yields not-found. -/
theorem c7_level_first_search :
    ∀ (key : String) (skip : Bool) (obj : JValue) (max_depth current_depth : Nat),
      recursive_search obj key max_depth current_depth skip
        = searchSpec key skip (max_depth - current_depth) obj
      ∧ (max_depth ≤ current_depth →
          recursive_search obj key max_depth current_depth skip = none) := by
  have main : ∀ (key : String) (skip : Bool) (fuel : Nat) (obj : JValue),
      rsearch key skip fuel obj = searchSpec key skip fuel obj := by
    intro key skip fuel
    induction fuel with
    | zero => intro obj; rfl
    | succ n ih =>
        intro obj
        cases obj with
        | obj fields =>
            show (match fields.find? (fun kv : String × JValue =>
                    keptKey skip kv.1 && substrB key (lowerStr kv.1)) with
                  | some kv => pyOpt kv.2
                  | none => (fields.filter (fun kv : String × JValue => keptKey skip kv.1)).findSome?
                      (fun kv : String × JValue => rsearch key skip n kv.2))
              = _

            rw [show searchSpec key skip (n + 1) (.obj fields)
                = (match (fields.filter (fun kv : String × JValue => keptKey skip kv.1)).find?
                      (fun kv : String × JValue => substrB key (lowerStr kv.1)) with
                   | some kv => pyOpt kv.2
                   | none => (fields.filter (fun kv : String × JValue => keptKey skip kv.1)).findSome?
                       (fun kv : String × JValue => searchSpec key skip n kv.2)) from rfl]
            rw [find?_filter_comm (fun kv : String × JValue => keptKey skip kv.1)
              (fun kv : String × JValue => substrB key (lowerStr kv.1)) fields]
            cases fields.find? (fun kv : String × JValue =>
                keptKey skip kv.1 && substrB key (lowerStr kv.1)) with
            | some kv => rfl
            | none =>
                exact findSome?_congr _ _ _ (fun kv _ => ih kv.2)
        | arr items =>
            show items.findSome? (fun it => rsearch key skip n it)
              = items.findSome? (fun it => searchSpec key skip n it)
            exact findSome?_congr _ _ _ (fun it _ => ih it)
        | str s => rfl
        | num n' => rfl
        | bool b => rfl
        | null => rfl
  intro key skip obj max_depth current_depth
  refine ⟨main key skip (max_depth - current_depth) obj, ?_⟩
  intro hle
  rw [recursive_search, Nat.sub_eq_zero_of_le hle]
  rfl

/-- C7 witness: at exhausted depth budget the search yields not-found,
and the equivalence holds at a concrete nested input. -/
theorem c7_level_first_search_witness :
    recursive_search (.obj [("wait_on", .str "x")]) "wait_on" 10 10 true = none := by
  exact (c7_level_first_search "wait_on" true (.obj [("wait_on", .str "x")]) 10 10).2
    (Nat.le_refl 10)

/-- C10 witness: the chain pair `("A", "B")` yields an edge whose target
is not `END_CALL`. -/
theorem c10_flow_graph_witness :
    ({ efrom := .str "A", eto := .str "B", elabel := none, etype := "smartflow" } : FlowEdge).eto
      ≠ .str "END_CALL" := by
  have hm : ({ efrom := .str "A", eto := .str "B", elabel := none,
               etype := "smartflow" } : FlowEdge) ∈ smartflow_edges [("A", "B")] := by
    rw [show smartflow_edges [("A", "B")]
        = [{ efrom := .str "A", eto := .str "B", elabel := none, etype := "smartflow" }] from rfl]
    exact List.mem_singleton.mpr rfl
  exact c10_flow_graph.2 [("A", "B")] _ hm

theorem listPrefixB_iff : ∀ a b : List Char, listPrefixB a b = true ↔ a <+: b
  | [], b => by simp [listPrefixB]
  | x :: xs, [] => by simp [listPrefixB]
  | x :: xs, y :: ys => by
      rw [show listPrefixB (x :: xs) (y :: ys) = (x == y && listPrefixB xs ys) from rfl,
        List.cons_prefix_cons]
      simp [listPrefixB_iff xs ys]

theorem listInfixB_iff : ∀ a b : List Char, listInfixB a b = true ↔ a <:+: b
  | a, [] => by simp [listInfixB, List.isEmpty_iff]
  | a, c :: rest => by
      rw [show listInfixB a (c :: rest) = (listPrefixB a (c :: rest) || listInfixB a rest)
          from rfl, List.infix_cons_iff]
      simp [listPrefixB_iff, listInfixB_iff a rest]

theorem substrB_iff (n h : String) : substrB n h = true ↔ n.data <:+: h.data :=
  listInfixB_iff _ _

theorem pyQuoteChar_cases (s : String) : pyQuoteChar s = '\'' ∨ pyQuoteChar s = '"' := by
  unfold pyQuoteChar
  split
  · exact Or.inr rfl
  · exact Or.inl rfl

theorem escape_keeps {q c : Char} (hq : q = '\'' ∨ q = '"')
    (hc : safeKeyChar c.toLower = true) : pyEscapeChar q c = [c] := by
  have h1 : c ≠ '\\' := by rintro rfl; revert hc; decide
  have h3 : c ≠ '\n' := by rintro rfl; revert hc; decide
  have h4 : c ≠ '\r' := by rintro rfl; revert hc; decide
  have h5 : c ≠ '\t' := by rintro rfl; revert hc; decide
  have h2 : c ≠ q := by
    rcases hq with rfl | rfl <;> (rintro rfl; revert hc; decide)
  unfold pyEscapeChar
  simp [h1, h2, h3, h4, h5]

theorem flatMap_escape_id {q : Char} (hq : q = '\'' ∨ q = '"') :
    ∀ w : List Char, (∀ c ∈ w, safeKeyChar c.toLower = true) →
      w.flatMap (pyEscapeChar q) = w := by
  intro w
  induction w with
  | nil => intro _; rfl
  | cons c rest ih =>
      intro h
      rw [List.flatMap_cons, escape_keeps hq (h c (by simp)),
        ih (fun d hd => h d (by simp [hd]))]
      rfl

theorem key_infix_reprStr {key k : String}
    (hsafe : key.data.all safeKeyChar = true)
    (h : substrB key (lowerStr k) = true) :
    key.data <:+: (lowerStr (pyReprStr k)).data := by
  rw [substrB_iff] at h
  have hlow : (lowerStr k).data = k.data.map Char.toLower := rfl
  rw [hlow] at h
  obtain ⟨s, t, hst⟩ := h
  have hsplit : k.data.map Char.toLower = s ++ (key.data ++ t) := by
    rw [← hst]; simp [List.append_assoc]
  rw [List.map_eq_append_iff] at hsplit
  obtain ⟨a, wt, hk, hma, hmwt⟩ := hsplit
  rw [List.map_eq_append_iff] at hmwt
  obtain ⟨w, b, hwt, hmw, hmb⟩ := hmwt
  have hw : ∀ c ∈ w, safeKeyChar c.toLower = true := by
    intro c hc
    have hmem : c.toLower ∈ key.data := by
      rw [← hmw]
      exact List.mem_map_of_mem _ hc
    exact List.all_eq_true.mp hsafe _ hmem
  have hq := pyQuoteChar_cases k
  have hrepr : (pyReprStr k).data
      = pyQuoteChar k :: (a.flatMap (pyEscapeChar (pyQuoteChar k)) ++ w
          ++ b.flatMap (pyEscapeChar (pyQuoteChar k))) ++ [pyQuoteChar k] := by
    show (String.singleton (pyQuoteChar k)
        ++ (⟨k.data.flatMap (pyEscapeChar (pyQuoteChar k))⟩ : String)
        ++ String.singleton (pyQuoteChar k)).data = _
    rw [String.data_append, String.data_append]
    rw [show (String.singleton (pyQuoteChar k)).data = [pyQuoteChar k] from rfl]
    rw [show (⟨k.data.flatMap (pyEscapeChar (pyQuoteChar k))⟩ : String).data
        = k.data.flatMap (pyEscapeChar (pyQuoteChar k)) from rfl]
    rw [hk, hwt, List.flatMap_append, List.flatMap_append, flatMap_escape_id hq w hw]
    simp
  show key.data <:+: (pyReprStr k).data.map Char.toLower
  rw [hrepr]
  refine ⟨(pyQuoteChar k).toLower :: (a.flatMap (pyEscapeChar (pyQuoteChar k))).map Char.toLower,
    (b.flatMap (pyEscapeChar (pyQuoteChar k))).map Char.toLower ++ [(pyQuoteChar k).toLower], ?_⟩
  simp [List.map_append, hmw, List.append_assoc]

theorem infix_extend_left {X Y : List Char} (Z : List Char) (h : X <:+: Y) : X <:+: Z ++ Y :=
  h.trans (List.suffix_append Z Y).isInfix

theorem infix_extend_right {X Y : List Char} (Z : List Char) (h : X <:+: Y) : X <:+: Y ++ Z :=
  h.trans (List.prefix_append Y Z).isInfix

theorem reprFields_unit_sub :
    ∀ (fields : List (String × JValue)) (kv : String × JValue), kv ∈ fields →
      (pyReprStr kv.1 ++ ": " ++ pyRepr kv.2).data <:+: (pyReprFields fields).data := by
  intro fields
  induction fields with
  | nil => intro kv h; simp at h
  | cons p rest ih =>
      intro kv h
      rcases List.mem_cons.mp h with he | he
      · subst he
        cases rest with
        | nil =>
            rw [show pyReprFields [kv] = pyReprStr kv.1 ++ ": " ++ pyRepr kv.2 from by
              cases kv; rfl]
        | cons q rest' =>
            rw [show pyReprFields (kv :: q :: rest')
                = pyReprStr kv.1 ++ ": " ++ pyRepr kv.2 ++ ", " ++ pyReprFields (q :: rest')
                from by cases kv; rfl]
            rw [String.data_append, String.data_append]
            exact infix_extend_right _ (infix_extend_right _ List.infix_rfl)
      · cases rest with
        | nil => simp at he
        | cons q rest' =>
            rw [show pyReprFields (p :: q :: rest')
                = pyReprStr p.1 ++ ": " ++ pyRepr p.2 ++ ", " ++ pyReprFields (q :: rest')
                from by cases p; rfl]
            rw [String.data_append]
            exact infix_extend_left _ (ih kv he)

theorem reprStr_key_infix_obj {kv : String × JValue} {fields : List (String × JValue)}
    (h : kv ∈ fields) : (pyReprStr kv.1).data <:+: (pyRepr (.obj fields)).data := by
  have h1 : (pyReprStr kv.1).data <:+: (pyReprStr kv.1 ++ ": " ++ pyRepr kv.2).data := by
    rw [String.data_append, String.data_append]
    exact infix_extend_right _ (infix_extend_right _ List.infix_rfl)
  refine (h1.trans (reprFields_unit_sub fields kv h)).trans ?_
  rw [show pyRepr (.obj fields) = "\x7b" ++ pyReprFields fields ++ "\x7d" from rfl,
    String.data_append, String.data_append]
  exact infix_extend_right _ (infix_extend_left _ List.infix_rfl)

theorem reprVal_infix_obj {kv : String × JValue} {fields : List (String × JValue)}
    (h : kv ∈ fields) : (pyRepr kv.2).data <:+: (pyRepr (.obj fields)).data := by
  have h1 : (pyRepr kv.2).data <:+: (pyReprStr kv.1 ++ ": " ++ pyRepr kv.2).data := by
    rw [String.data_append]
    exact infix_extend_left _ List.infix_rfl
  refine (h1.trans (reprFields_unit_sub fields kv h)).trans ?_
  rw [show pyRepr (.obj fields) = "\x7b" ++ pyReprFields fields ++ "\x7d" from rfl,
    String.data_append, String.data_append]
  exact infix_extend_right _ (infix_extend_left _ List.infix_rfl)

theorem reprItems_sub :
    ∀ (items : List JValue) (v : JValue), v ∈ items →
      (pyRepr v).data <:+: (pyReprItems items).data := by
  intro items
  induction items with
  | nil => intro v h; simp at h
  | cons p rest ih =>
      intro v h
      rcases List.mem_cons.mp h with he | he
      · subst he
        cases rest with
        | nil => rw [show pyReprItems [v] = pyRepr v from rfl]
        | cons q rest' =>
            rw [show pyReprItems (v :: q :: rest')
                = pyRepr v ++ ", " ++ pyReprItems (q :: rest') from rfl]
            rw [String.data_append, String.data_append]
            exact infix_extend_right _ (infix_extend_right _ List.infix_rfl)
      · cases rest with
        | nil => simp at he
        | cons q rest' =>
            rw [show pyReprItems (p :: q :: rest')
                = pyRepr p ++ ", " ++ pyReprItems (q :: rest') from rfl]
            rw [String.data_append]
            exact infix_extend_left _ (ih v he)

theorem repr_infix_arr {v : JValue} {items : List JValue} (h : v ∈ items) :
    (pyRepr v).data <:+: (pyRepr (.arr items)).data := by
  refine (reprItems_sub items v h).trans ?_
  rw [show pyRepr (.arr items) = "[" ++ pyReprItems items ++ "]" from rfl,
    String.data_append, String.data_append]
  exact infix_extend_right _ (infix_extend_left _ List.infix_rfl)

theorem findSome?_none_of {α β : Type} (f : α → Option β) :
    ∀ l : List α, (∀ x ∈ l, f x = none) → l.findSome? f = none := by
  intro l
  induction l with
  | nil => intro _; rfl
  | cons a rest ih =>
      intro h
      rw [List.findSome?_cons, h a (by simp)]
      exact ih (fun x hx => h x (by simp [hx]))

theorem exists_of_findSome? {α β : Type} (f : α → Option β) :
    ∀ (l : List α) (r : β), l.findSome? f = some r → ∃ x ∈ l, f x = some r := by
  intro l
  induction l with
  | nil => intro r h; exact absurd h (by simp)
  | cons a rest ih =>
      intro r h
      rw [List.findSome?_cons] at h
      cases hf : f a with
      | some b =>
          rw [hf] at h
          exact ⟨a, by simp, hf.trans h⟩
      | none =>
          rw [hf] at h
          obtain ⟨x, hx, hfx⟩ := ih r h
          exact ⟨x, by simp [hx], hfx⟩

theorem rsearch_shape {key : String} {skip : Bool} {fuel : Nat} {v r : JValue}
    (h : rsearch key skip fuel v = some r) :
    isDictOrList v = true ∧ pyTruthy v = true := by
  cases fuel with
  | zero => exact absurd h (by rw [show rsearch key skip 0 v = none from rfl]; simp)
  | succ n =>
      cases v with
      | obj fields =>
          refine ⟨rfl, ?_⟩
          cases fields with
          | nil => exact absurd h (by rw [show rsearch key skip (n + 1) (.obj []) = none from rfl]; simp)
          | cons p rest => simp [pyTruthy]
      | arr items =>
          refine ⟨rfl, ?_⟩
          cases items with
          | nil => exact absurd h (by rw [show rsearch key skip (n + 1) (.arr []) = none from rfl]; simp)
          | cons p rest => simp [pyTruthy]
      | str s => exact absurd h (by rw [show rsearch key skip (n + 1) (.str s) = none from rfl]; simp)
      | num k => exact absurd h (by rw [show rsearch key skip (n + 1) (.num k) = none from rfl]; simp)
      | bool b => exact absurd h (by rw [show rsearch key skip (n + 1) (.bool b) = none from rfl]; simp)
      | null => exact absurd h (by rw [show rsearch key skip (n + 1) .null = none from rfl]; simp)

theorem rsearch_some_sub {key : String} (hsafe : key.data.all safeKeyChar = true) :
    ∀ (fuel : Nat) (v r : JValue), rsearch key true fuel v = some r →
      key.data <:+: (lowerStr (pyRepr v)).data := by
  intro fuel
  induction fuel with
  | zero => intro v r h; exact absurd h (by rw [show rsearch key true 0 v = none from rfl]; simp)
  | succ n ih =>
      intro v r h
      cases v with
      | obj fields =>
          rw [show rsearch key true (n + 1) (.obj fields)
              = (match fields.find? (fun kv : String × JValue =>
                    keptKey true kv.1 && substrB key (lowerStr kv.1)) with
                 | some kv => pyOpt kv.2
                 | none => (fields.filter (fun kv : String × JValue => keptKey true kv.1)).findSome?
                     (fun kv : String × JValue => rsearch key true n kv.2)) from rfl] at h
          cases hf : fields.find? (fun kv : String × JValue =>
              keptKey true kv.1 && substrB key (lowerStr kv.1)) with
          | some kv =>
              have hpred := List.find?_some hf
              have hmem := List.mem_of_find?_eq_some hf
              rw [Bool.and_eq_true] at hpred
              have hkey := key_infix_reprStr hsafe hpred.2
              have hmono : (lowerStr (pyReprStr kv.1)).data <:+: (lowerStr (pyRepr (.obj fields))).data := by
                show ((pyReprStr kv.1).data.map Char.toLower)
                    <:+: ((pyRepr (.obj fields)).data.map Char.toLower)
                exact (reprStr_key_infix_obj hmem).map Char.toLower
              exact hkey.trans hmono
          | none =>
              rw [hf] at h
              obtain ⟨kv, hkvmem, hkvr⟩ := exists_of_findSome? _ _ r h
              have hmem : kv ∈ fields := List.mem_of_mem_filter hkvmem
              have hkey := ih kv.2 r hkvr
              have hmono : (lowerStr (pyRepr kv.2)).data <:+: (lowerStr (pyRepr (.obj fields))).data := by
                show ((pyRepr kv.2).data.map Char.toLower)
                    <:+: ((pyRepr (.obj fields)).data.map Char.toLower)
                exact (reprVal_infix_obj hmem).map Char.toLower
              exact hkey.trans hmono
      | arr items =>
          rw [show rsearch key true (n + 1) (.arr items)
              = items.findSome? (fun it => rsearch key true n it) from rfl] at h
          obtain ⟨it, hitmem, hitr⟩ := exists_of_findSome? _ _ r h
          have hkey := ih it r hitr
          have hmono : (lowerStr (pyRepr it)).data <:+: (lowerStr (pyRepr (.arr items))).data := by
            show ((pyRepr it).data.map Char.toLower)
                <:+: ((pyRepr (.arr items)).data.map Char.toLower)
            exact (repr_infix_arr hitmem).map Char.toLower
          exact hkey.trans hmono
      | str s => exact absurd h (by rw [show rsearch key true (n + 1) (.str s) = none from rfl]; simp)
      | num k => exact absurd h (by rw [show rsearch key true (n + 1) (.num k) = none from rfl]; simp)
      | bool b => exact absurd h (by rw [show rsearch key true (n + 1) (.bool b) = none from rfl]; simp)
      | null => exact absurd h (by rw [show rsearch key true (n + 1) .null = none from rfl]; simp)

theorem noKeyFields_mem {key : String} :
    ∀ fields : List (String × JValue), noKeyOutsideSDFields key fields = true →
      ∀ kv ∈ fields, kv.1 = "SessionData"
        ∨ (substrB key (lowerStr kv.1) = false ∧ noKeyOutsideSD key kv.2 = true) := by
  intro fields
  induction fields with
  | nil => intro _ kv h; simp at h
  | cons p rest ih =>
      intro h kv hm
      obtain ⟨k, v⟩ := p
      rw [show noKeyOutsideSDFields key ((k, v) :: rest)
          = ((if k = "SessionData" then true
              else !(substrB key (lowerStr k)) && noKeyOutsideSD key v)
             && noKeyOutsideSDFields key rest) from rfl, Bool.and_eq_true] at h
      rcases List.mem_cons.mp hm with he | he
      · subst he
        by_cases hsd : k = "SessionData"
        · exact Or.inl hsd
        · right
          have h1 := h.1
          rw [if_neg hsd, Bool.and_eq_true, Bool.not_eq_true'] at h1
          exact h1
      · exact ih h.2 kv he

theorem noKeyItems_mem {key : String} :
    ∀ items : List JValue, noKeyOutsideSDItems key items = true →
      ∀ v ∈ items, noKeyOutsideSD key v = true := by
  intro items
  induction items with
  | nil => intro _ v h; simp at h
  | cons p rest ih =>
      intro h v hm
      rw [show noKeyOutsideSDItems key (p :: rest)
          = (noKeyOutsideSD key p && noKeyOutsideSDItems key rest) from rfl,
        Bool.and_eq_true] at h
      rcases List.mem_cons.mp hm with he | he
      · subst he; exact h.1
      · exact ih h.2 v he

theorem rsearch_none_of_noKey {key : String} :
    ∀ (fuel : Nat) (v : JValue), noKeyOutsideSD key v = true →
      rsearch key true fuel v = none := by
  intro fuel
  induction fuel with
  | zero => intro v _; rfl
  | succ n ih =>
      intro v hv
      cases v with
      | obj fields =>
          have hfields : noKeyOutsideSDFields key fields = true := hv
          have hf : fields.find? (fun kv : String × JValue =>
              keptKey true kv.1 && substrB key (lowerStr kv.1)) = none := by
            rw [List.find?_eq_none]
            intro kv hkv
            rcases noKeyFields_mem fields hfields kv hkv with hsd | hplain
            · simp [keptKey, hsd]
            · simp [hplain.1]
          rw [show rsearch key true (n + 1) (.obj fields)
              = (match fields.find? (fun kv : String × JValue =>
                    keptKey true kv.1 && substrB key (lowerStr kv.1)) with
                 | some kv => pyOpt kv.2
                 | none => (fields.filter (fun kv : String × JValue => keptKey true kv.1)).findSome?
                     (fun kv : String × JValue => rsearch key true n kv.2)) from rfl, hf]
          refine findSome?_none_of _ _ ?_
          intro kv hkv
          have hmem : kv ∈ fields := List.mem_of_mem_filter hkv
          have hkept : keptKey true kv.1 = true := (List.mem_filter.mp hkv).2
          rcases noKeyFields_mem fields hfields kv hmem with hsd | hplain
          · rw [keptKey, hsd] at hkept
            simp at hkept
          · exact ih kv.2 hplain.2
      | arr items =>
          rw [show rsearch key true (n + 1) (.arr items)
              = items.findSome? (fun it => rsearch key true n it) from rfl]
          exact findSome?_none_of _ _ (fun it hit => ih it (noKeyItems_mem items hv it hit))
      | str s => rfl
      | num k => rfl
      | bool b => rfl
      | null => rfl

theorem string_ne_empty_of_data {s : String} (h : s.data ≠ []) : s ≠ "" := by
  intro he
  rw [he] at h
  exact h rfl

theorem natDigits_ne : ∀ (fuel m : Nat) (acc : String), acc ≠ "" → natDigits fuel m acc ≠ "" := by
  intro fuel
  induction fuel with
  | zero => intro m acc h; exact h
  | succ n ih =>
      intro m acc h
      rw [show natDigits (n + 1) m acc
          = (if m / 10 = 0 then String.singleton (Char.ofNat (m % 10 + 48)) ++ acc
             else natDigits n (m / 10) (String.singleton (Char.ofNat (m % 10 + 48)) ++ acc))
          from rfl]
      have hne : String.singleton (Char.ofNat (m % 10 + 48)) ++ acc ≠ "" := by
        apply string_ne_empty_of_data
        rw [String.data_append]
        simp [String.singleton]
      by_cases hz : m / 10 = 0
      · rw [if_pos hz]; exact hne
      · rw [if_neg hz]; exact ih (m / 10) _ hne

theorem string_eq_empty_of_data {s : String} (h : s.data = []) : s = "" := by
  cases s
  simp at h
  rw [h]

theorem natDigits_succ_ne (n m : Nat) (acc : String) : natDigits (n + 1) m acc ≠ "" := by
  rw [show natDigits (n + 1) m acc
      = (if m / 10 = 0 then String.singleton (Char.ofNat (m % 10 + 48)) ++ acc
         else natDigits n (m / 10) (String.singleton (Char.ofNat (m % 10 + 48)) ++ acc))
      from rfl]
  have hne : String.singleton (Char.ofNat (m % 10 + 48)) ++ acc ≠ "" := by
    apply string_ne_empty_of_data
    rw [String.data_append]
    simp [String.singleton]
  by_cases hz : m / 10 = 0
  · rw [if_pos hz]; exact hne
  · rw [if_neg hz]; exact natDigits_ne n (m / 10) _ hne

theorem pyStrInt_ne (n : Int) : pyStrInt n ≠ "" := by
  unfold pyStrInt
  intro h
  have hd : ((if n < 0 then "-" else "") ++ natDigits (n.natAbs + 1) n.natAbs "").data = [] := by
    rw [h]
  rw [String.data_append, List.append_eq_nil] at hd
  exact natDigits_succ_ne n.natAbs n.natAbs "" (string_eq_empty_of_data hd.2)

theorem pyStr_ne_of_truthy {v : JValue} (h : pyTruthy v = true) : pyStr v ≠ "" := by
  cases v with
  | str s => simpa [pyTruthy] using h
  | num n => exact pyStrInt_ne n
  | bool b => cases b <;> simp [pyStr, pyRepr]
  | null => simp [pyTruthy] at h
  | obj fields =>
      apply string_ne_empty_of_data
      rw [show pyStr (.obj fields) = "\x7b" ++ pyReprFields fields ++ "\x7d" from rfl,
        String.data_append, String.data_append]
      simp
  | arr items =>
      apply string_ne_empty_of_data
      rw [show pyStr (.arr items) = "[" ++ pyReprItems items ++ "]" from rfl,
        String.data_append, String.data_append]
      simp

theorem recursive_search_eq (c : JValue) (key : String) :
    recursive_search c key 10 0 true = rsearch key true 10 c := rfl

theorem waitOnStructural_none {c m : JValue}
    (h1 : noKeyOutsideSD "wait_on" c = true) (h2 : noKeyOutsideSD "wait_on" m = true) :
    waitOnStructural c m = none := by
  have e1 : recursive_search c "wait_on" 10 0 true = none := by
    rw [recursive_search_eq]
    exact rsearch_none_of_noKey 10 c h1
  have e2 : recursive_search m "wait_on" 10 0 true = none := by
    rw [recursive_search_eq]
    exact rsearch_none_of_noKey 10 m h2
  unfold waitOnStructural
  by_cases hdc : isDictOrList c <;> by_cases hdm : isDictOrList m <;>
    simp [hdc, hdm, e1, e2, strOptTruthy]

theorem detect_wait_none {c m : JValue}
    (h1 : noKeyOutsideSD "wait_on" c = true) (h2 : noKeyOutsideSD "wait_on" m = true)
    (h3 : waitOnFallback (contentWithoutSessionData c m) = none) :
    (detect_important_fields c m).has_wait_on = false
    ∧ (detect_important_fields c m).wait_on_value = none := by
  unfold detect_important_fields
  by_cases hg : substrB "wait_on" (lowerStr (combinedStr c m))
  · simp [hg, waitOnStructural_none h1 h2, h3, strOptTruthy]
  · simp [hg, strOptTruthy]

theorem pyStr_container {v : JValue} (h : isDictOrList v = true) : pyStr v = pyRepr v := by
  cases v <;> first | rfl | simp [isDictOrList] at h

theorem detect_guard_of_found {c m v : JValue}
    (hr : rsearch "wait_on" true 10 c = some v) :
    substrB "wait_on" (lowerStr (combinedStr c m)) = true := by
  have hshape := rsearch_shape hr
  have hinf := @rsearch_some_sub "wait_on" (by decide) 10 c v hr
  rw [substrB_iff]
  show "wait_on".data <:+: (combinedStr c m).data.map Char.toLower
  unfold combinedStr
  rw [if_pos hshape.2, String.data_append, String.data_append, pyStr_container hshape.1]
  rw [List.map_append, List.map_append]
  exact infix_extend_right _ (infix_extend_right _ hinf)

theorem detect_wait_found {c m v : JValue}
    (hrs : recursive_search c "wait_on" 10 0 true = some v) (htr : pyTruthy v = true) :
    (detect_important_fields c m).has_wait_on = true
    ∧ (detect_important_fields c m).wait_on_value = some (pyStr v) := by
  have hr : rsearch "wait_on" true 10 c = some v := hrs
  have hshape := rsearch_shape hr
  have hguard := @detect_guard_of_found c m v hr
  have hws : waitOnStructural c m = some (pyStr v) := by
    unfold waitOnStructural
    simp [hshape.1, hrs, htr, strOptTruthy, pyStr_ne_of_truthy htr]
  unfold detect_important_fields
  simp [hguard, hws, strOptTruthy, pyStr_ne_of_truthy htr]

theorem statusStructural_none {c : JValue}
    (h1 : noKeyOutsideSD "statuscode" c = true) (h2 : noKeyOutsideSD "status_code" c = true) :
    statusStructural c = none := by
  have e1 : recursive_search c "statuscode" 10 0 true = none := by
    rw [recursive_search_eq]
    exact rsearch_none_of_noKey 10 c h1
  have e2 : recursive_search c "status_code" 10 0 true = none := by
    rw [recursive_search_eq]
    exact rsearch_none_of_noKey 10 c h2
  unfold statusStructural
  by_cases hdc : isDictOrList c <;> simp [hdc, e1, e2]

theorem detect_err_none {c m : JValue}
    (h1 : noKeyOutsideSD "statuscode" c = true) (h2 : noKeyOutsideSD "status_code" c = true)
    (h3 : statusFallback (combinedStr c m) = none) :
    (detect_important_fields c m).has_error = false
    ∧ (detect_important_fields c m).error_code = none := by
  have he : (detect_important_fields c m).error_code = none := by
    rw [detect_error_eq, statusStructural_none h1 h2]
    exact h3
  refine ⟨?_, he⟩
  rw [detect_error_isSome, he]
  rfl

theorem statusStructural_found {c v : JValue} {k : Int}
    (hrs : recursive_search c "statuscode" 10 0 true = some v) (htr : pyTruthy v = true)
    (his : isIntOrStr v = true) (hint : pyInt v = some k) (hge : 400 ≤ k) :
    statusStructural c = some k := by
  have hshape := rsearch_shape (show rsearch "statuscode" true 10 c = some v from hrs)
  unfold statusStructural
  simp [hshape.1, hrs, htr, his, hint, hge]

theorem detect_err_found {c m v : JValue} {k : Int}
    (hrs : recursive_search c "statuscode" 10 0 true = some v) (htr : pyTruthy v = true)
    (his : isIntOrStr v = true) (hint : pyInt v = some k) (hge : 400 ≤ k) :
    (detect_important_fields c m).has_error = true
    ∧ (detect_important_fields c m).error_code = some k := by
  have he : (detect_important_fields c m).error_code = some k := by
    rw [detect_error_eq, statusStructural_found hrs htr his hint hge]
  refine ⟨?_, he⟩
  rw [detect_error_isSome, he]
  rfl

theorem detect_guard_of_found_meta {c m v : JValue}
    (hr : rsearch "wait_on" true 10 m = some v) :
    substrB "wait_on" (lowerStr (combinedStr c m)) = true := by
  have hshape := rsearch_shape hr
  have hinf := @rsearch_some_sub "wait_on" (by decide) 10 m v hr
  rw [substrB_iff]
  show "wait_on".data <:+: (combinedStr c m).data.map Char.toLower
  unfold combinedStr
  rw [if_pos hshape.2, String.data_append, String.data_append, pyStr_container hshape.1]
  rw [List.map_append, List.map_append]
  exact infix_extend_left _ hinf

theorem detect_wait_found_meta {c m v : JValue}
    (hnc : ∀ u, recursive_search c "wait_on" 10 0 true = some u → pyTruthy u = false)
    (hrs : recursive_search m "wait_on" 10 0 true = some v) (htr : pyTruthy v = true) :
    (detect_important_fields c m).has_wait_on = true
    ∧ (detect_important_fields c m).wait_on_value = some (pyStr v) := by
  have hr : rsearch "wait_on" true 10 m = some v := hrs
  have hshape := rsearch_shape hr
  have hguard := @detect_guard_of_found_meta c m v hr
  have hws : waitOnStructural c m = some (pyStr v) := by
    unfold waitOnStructural
    by_cases hdc : isDictOrList c
    · cases hc : recursive_search c "wait_on" 10 0 true with
      | none => simp [hdc, hc, hshape.1, hrs, htr, strOptTruthy]
      | some u => simp [hdc, hc, hnc u hc, hshape.1, hrs, htr, strOptTruthy]
    · simp [hdc, hshape.1, hrs, htr, strOptTruthy]
  unfold detect_important_fields
  simp [hguard, hws, strOptTruthy, pyStr_ne_of_truthy htr]

theorem statusStructural_found2 {c v : JValue} {k : Int}
    (hnc : ∀ u, recursive_search c "statuscode" 10 0 true = some u → pyTruthy u = false)
    (hrs : recursive_search c "status_code" 10 0 true = some v) (htr : pyTruthy v = true)
    (his : isIntOrStr v = true) (hint : pyInt v = some k) (hge : 400 ≤ k) :
    statusStructural c = some k := by
  have hshape := rsearch_shape (show rsearch "status_code" true 10 c = some v from hrs)
  unfold statusStructural
  cases ha : recursive_search c "statuscode" 10 0 true with
  | none => simp [hshape.1, ha, hrs, htr, his, hint, hge]
  | some u => simp [hshape.1, ha, hnc u ha, hrs, htr, his, hint, hge]

theorem detect_err_found2 {c m v : JValue} {k : Int}
    (hnc : ∀ u, recursive_search c "statuscode" 10 0 true = some u → pyTruthy u = false)
    (hrs : recursive_search c "status_code" 10 0 true = some v) (htr : pyTruthy v = true)
    (his : isIntOrStr v = true) (hint : pyInt v = some k) (hge : 400 ≤ k) :
    (detect_important_fields c m).has_error = true
    ∧ (detect_important_fields c m).error_code = some k := by
  have he : (detect_important_fields c m).error_code = some k := by
    rw [detect_error_eq, statusStructural_found2 hnc hrs htr his hint hge]
  refine ⟨?_, he⟩
  rw [detect_error_isSome, he]
  rfl

set_option maxRecDepth 4000 in
/-- C1 counterexample: `c1entry`'s payload holds the key `wait_on` only
inside a `SessionData` subtree (both in content and metadata), yet the
derived flag `has_wait_on` is `true` with value `"evt"`: a sibling string
value inside `SessionData` textually contains `wait_on=evt`, the nested
`SessionData` is not top-level so the fallback string is not stripped, and
the bare-assignment regex pattern fires on it. The claimed "only inside
SessionData implies the flag is False" therefore fails. -/
theorem c1_counterexample :
    noKeyOutsideSD "wait_on" c1entry.content = true
    ∧ noKeyOutsideSD "wait_on" c1entry.metadata = true
    ∧ c1entry.has_wait_on = true
    ∧ c1entry.wait_on_value = some "evt" := ⟨rfl, rfl, rfl, rfl⟩

/-- C1 (amended): for every constructed Log Entry, (1) if neither content
nor metadata holds a key containing `wait_on` outside a `SessionData`
subtree and the regex fallback finds no match in the (SessionData-stripped)
stringified payload, then `has_wait_on` is `false` and `wait_on_value` is
`none`; (2) if the SessionData-skipping structural search on content finds
a truthy value, the flag is `true` with its stringification; (3) likewise
when the content search finds nothing truthy but the metadata search does;
(4) if no status key occurs outside `SessionData` in content and the
status regex fallback finds nothing, `has_error` is `false` with
`error_code` `none`; (5) if the `statuscode`-spelling search on content
finds a truthy int-or-str value parsing to a code ≥ 400, `has_error` is
`true` with that code; (6) likewise when the `statuscode` search finds
nothing truthy but the `status_code`-spelling search does. -/
theorem c1_detection_amended
    (ts : JValue) (src : String) (sid lt ct bid tid txid rl mt md : JValue)
    (e : LogEntry) (he : e = mkLogEntry ts src sid lt ct bid tid txid rl mt md) :
    (noKeyOutsideSD "wait_on" e.content = true →
     noKeyOutsideSD "wait_on" e.metadata = true →
     waitOnFallback (contentWithoutSessionData e.content e.metadata) = none →
     e.has_wait_on = false ∧ e.wait_on_value = none)
    ∧ (∀ v, recursive_search e.content "wait_on" 10 0 true = some v → pyTruthy v = true →
       e.has_wait_on = true ∧ e.wait_on_value = some (pyStr v))
    ∧ (∀ v, (∀ u, recursive_search e.content "wait_on" 10 0 true = some u → pyTruthy u = false) →
       recursive_search e.metadata "wait_on" 10 0 true = some v → pyTruthy v = true →
       e.has_wait_on = true ∧ e.wait_on_value = some (pyStr v))
    ∧ (noKeyOutsideSD "statuscode" e.content = true →
       noKeyOutsideSD "status_code" e.content = true →
       statusFallback (combinedStr e.content e.metadata) = none →
       e.has_error = false ∧ e.error_code = none)
    ∧ (∀ v k, recursive_search e.content "statuscode" 10 0 true = some v →
       pyTruthy v = true → isIntOrStr v = true → pyInt v = some k → 400 ≤ k →
       e.has_error = true ∧ e.error_code = some k)
    ∧ (∀ v k, (∀ u, recursive_search e.content "statuscode" 10 0 true = some u →
         pyTruthy u = false) →
       recursive_search e.content "status_code" 10 0 true = some v →
       pyTruthy v = true → isIntOrStr v = true → pyInt v = some k → 400 ≤ k →
       e.has_error = true ∧ e.error_code = some k) := by
  subst he
  refine ⟨fun h1 h2 h3 => ?_, fun v hrs htr => ?_, fun v hnc hrs htr => ?_,
    fun h1 h2 h3 => ?_, fun v k hrs htr his hint hge => ?_,
    fun v k hnc hrs htr his hint hge => ?_⟩
  · exact detect_wait_none h1 h2 h3
  · exact detect_wait_found hrs htr
  · exact detect_wait_found_meta hnc hrs htr
  · exact detect_err_none h1 h2 h3
  · exact detect_err_found hrs htr his hint hge
  · exact detect_err_found2 hnc hrs htr his hint hge

set_option maxRecDepth 4000 in
/-- C1 witness: the amended detection theorem applied to three concrete
payloads — `c1waitSD` (keys only inside a top-level `SessionData`: both
flags stay unset), `c1waitKey` (truthy `wait_on` and a 503 `statuscode`
at top level of content: both flags set with the found values), and
`c1metaKey`/`c1metaMd` (`wait_on` found only by the metadata search,
status code only under the `status_code` spelling: both flags set). -/
theorem c1_detection_amended_witness :
    (mkLogEntry .null "x" .null .null c1waitSD .null .null .null .null .null .null).has_wait_on
      = false
    ∧ (mkLogEntry .null "x" .null .null c1waitSD .null .null .null .null .null .null).error_code
      = none
    ∧ (mkLogEntry .null "x" .null .null c1waitKey .null .null .null .null .null .null).wait_on_value
      = some "evt1"
    ∧ (mkLogEntry .null "x" .null .null c1waitKey .null .null .null .null .null .null).error_code
      = some 503
    ∧ (mkLogEntry .null "x" .null .null c1metaKey .null .null .null .null .null
        c1metaMd).wait_on_value = some "mv"
    ∧ (mkLogEntry .null "x" .null .null c1metaKey .null .null .null .null .null
        c1metaMd).error_code = some 502 := by
  have hSD := c1_detection_amended .null "x" .null .null c1waitSD .null .null .null .null .null
    .null _ rfl
  have hKey := c1_detection_amended .null "x" .null .null c1waitKey .null .null .null .null .null
    .null _ rfl
  have hMeta := c1_detection_amended .null "x" .null .null c1metaKey .null .null .null .null .null
    c1metaMd _ rfl
  refine ⟨(hSD.1 rfl rfl rfl).1, (hSD.2.2.2.1 rfl rfl rfl).2,
    (hKey.2.1 (.str "evt1") rfl rfl).2,
    (hKey.2.2.2.2.1 (.num 503) 503 rfl rfl rfl rfl (by decide)).2,
    (hMeta.2.2.1 (.str "mv") (fun u hu => Option.noConfusion hu) rfl rfl).2,
    (hMeta.2.2.2.2.2 (.num 502) 502 (fun u hu => Option.noConfusion hu) rfl rfl rfl rfl
      (by decide)).2⟩

end DebugTool
